import Mathlib

/-!
Verification development for the AIOStreams core: a shallow embedding of
the Torznab result normalizer/deduplicator (`TorznabAddon._searchTorrents`
and `TorznabAddon.extractInfoHash` in `packages/core/src/db/db.ts`), the
identifier resolver (`IdParser` in `packages/core/src/utils/id-parser.ts`),
and the preset address construction of `CustomPreset` and `JackettPreset`.

JavaScript optional values (`undefined`) are embedded as `Option`;
JS truthiness of strings (`""` is falsy) and the `||` / `??` operators are
modelled explicitly so that the embedding follows the source expressions
operator for operator.
-/

/-! ## JavaScript value helpers -/

/-- Truthiness of an optional JS string: `undefined` and `""` are falsy. -/
def jsTruthy : Option String → Bool
  | none => false
  | some s => s ≠ ""

/-- JS `a || b` on optional strings: `b` unless `a` is truthy. -/
def jsOrStr (a b : Option String) : Option String :=
  if jsTruthy a then a else b

/-- Case-sensitive prefix strip: `some rest` when `pat` heads `s`. -/
def stripPrefixExact : List Char → List Char → Option (List Char)
  | [], s => some s
  | _ :: _, [] => none
  | p :: ps, c :: cs => if c = p then stripPrefixExact ps cs else none

/-- Case-insensitive (ASCII) prefix strip, as a regex `/i` literal matches. -/
def stripPrefixCI : List Char → List Char → Option (List Char)
  | [], s => some s
  | _ :: _, [] => none
  | p :: ps, c :: cs => if c.toLower = p.toLower then stripPrefixCI ps cs else none

/-- Does `cs` contain `pat` as a contiguous run?  (JS `String.includes`.) -/
def charsHaveInfix (pat : List Char) : List Char → Bool
  | [] => pat.isEmpty
  | c :: cs => pat.isPrefixOf (c :: cs) || charsHaveInfix pat cs

/-- JS `s.includes(pat)`. -/
def jsIncludes (s pat : String) : Bool :=
  charsHaveInfix pat.toList s.toList

/-- JS `s.endsWith(suffixStr)`. -/
def strEndsWith (s suffixStr : String) : Bool :=
  List.isSuffixOf suffixStr.toList s.toList

/-! ## Torznab raw results (the provider-native objects of db.ts) -/

/-- One `enclosure` entry of a raw Torznab result: its `type` attribute and
its `url`. -/
structure Enclosure where
  type : String
  url : String
deriving DecidableEq

/-- The `torznab` extension block of a raw result.  `seeders` is `some n`
exactly when the provider reported a JS number (`typeof === 'number'`);
a missing or non-numeric value is `none`.  `size` is the raw attribute
string. -/
structure TorznabExt where
  infohash : Option String := none
  magneturl : Option String := none
  seeders : Option Int := none
  size : Option String := none
deriving DecidableEq

/-- The `jackettindexer` block; only its `name` is read. -/
structure JackettIndexer where
  name : String
deriving DecidableEq

/-- A raw Torznab search result, with the fields `_searchTorrents` reads. -/
structure RawResult where
  torznab : Option TorznabExt := none
  enclosure : List Enclosure := []
  title : String := ""
  size : Option Int := none
  jackettindexer : Option JackettIndexer := none
deriving DecidableEq

/-- The emitted `UnprocessedTorrent` record (db.ts lines 330–347).  The
`preset`/`type` literal `'torrent'` is kept in `type`. -/
structure UnprocessedTorrent where
  hash : Option String
  downloadUrl : Option String
  sources : List String
  seeders : Option Int
  indexer : Option String
  title : String
  size : Int
  type : String
deriving DecidableEq

/-! ## Info-hash extraction (db.ts lines 361–375) -/

/-- A lower-case hexadecimal digit, the character class `[a-f0-9]`. -/
def isHexDigitLower (c : Char) : Bool :=
  c.isDigit || ('a' ≤ c && c ≤ 'f')

/-- `[a-f0-9]` under the regex `/i` flag. -/
def isHexDigitCI (c : Char) : Bool :=
  isHexDigitLower c.toLower

/-- The separator alternation `(?::|%3A)` of the info-hash URN regex (the
regex carries `/i`, so `%3a` also matches). -/
def stripBtihSep : List Char → Option (List Char)
  | ':' :: cs => some cs
  | '%' :: '3' :: c :: cs => if c.toLower = 'a' then some cs else none
  | _ => none

/-- One attempt of `/(?:urn(?::|%3A)btih(?::|%3A))([a-f0-9]{40})/i` anchored
at the head of `s`; `some h` returns the 40 captured characters. -/
def btihMatchAt (s : List Char) : Option (List Char) :=
  match stripPrefixCI "urn".toList s with
  | none => none
  | some s1 =>
    match stripBtihSep s1 with
    | none => none
    | some s2 =>
      match stripPrefixCI "btih".toList s2 with
      | none => none
      | some s3 =>
        match stripBtihSep s3 with
        | none => none
        | some s4 =>
          let h := s4.take 40
          if h.length = 40 && h.all isHexDigitCI then some h else none

/-- The leftmost match of the info-hash URN regex (JS `String.match` scans
left to right). -/
def btihSearch : List Char → Option (List Char)
  | [] => none
  | c :: cs =>
    match btihMatchAt (c :: cs) with
    | some h => some h
    | none => btihSearch cs

/-- `s.match(/(?:urn(?::|%3A)btih(?::|%3A))([a-f0-9]{40})/i)?.[1]?.toLowerCase()`. -/
def btihHashOf (s : String) : Option String :=
  (btihSearch s.toList).map fun h => String.mk (h.map Char.toLower)

/-- Modelled from the spec: `validateInfoHash` is imported from
`../utils/debrid.js`, which is not among the repository files here.  The
spec calls it "a dedicated hash-format validator — a hash failing
validation is treated as absent, not as an error", and the data model fixes
the valid form as a "lower-case 40-hex-character SHA-1".  So the validator
passes exactly a lower-case 40-hex string through and yields `none` for
everything else, absence included. -/
def validateInfoHash : Option String → Option String
  | none => none
  | some s => if s.length = 40 && s.toList.all isHexDigitLower then some s else none

/-- The characters after the first occurrence of `sep`, if any. -/
def afterChar (sep : Char) : List Char → Option (List Char)
  | [] => none
  | c :: cs => if c = sep then some cs else afterChar sep cs

/-- Split a character list on a separator character. -/
def splitOnChar (sep : Char) : List Char → List (List Char)
  | [] => [[]]
  | c :: cs =>
    if c = sep then [] :: splitOnChar sep cs
    else
      match splitOnChar sep cs with
      | [] => [[c]]
      | g :: gs => (c :: g) :: gs

/-- Modelled from the spec: `extractTrackersFromMagnet` is imported from
`../utils/debrid.js`, which is not among the repository files here.  The
spec: "Extract the tracker list by parsing the magnet URI's query
parameters for tracker entries" — the values of the `tr` query parameters,
in order. -/
def extractTrackersFromMagnet (magnet : String) : List String :=
  match afterChar '?' magnet.toList with
  | none => []
  | some q =>
    (splitOnChar '&' q).filterMap fun p =>
      match p with
      | 't' :: 'r' :: '=' :: v => some (String.mk v)
      | _ => none

/-- `result.enclosure.find(e => e.type === 'application/x-bittorrent' &&
e.url.includes('magnet:'))?.url` — the magnet-bearing torrent enclosure. -/
def enclosureMagnetUrl (r : RawResult) : Option String :=
  (r.enclosure.find? fun e =>
    e.type = "application/x-bittorrent" && jsIncludes e.url "magnet:").map Enclosure.url

/-- `result.torznab?.magneturl || result.enclosure.find(...)?.url` — the
magnet candidate the regex is applied to (db.ts lines 365–370). -/
def magnetCandidate (r : RawResult) : Option String :=
  jsOrStr (r.torznab.bind TorznabExt.magneturl) (enclosureMagnetUrl r)

/-- `TorznabAddon.extractInfoHash` (db.ts lines 361–375):
`validateInfoHash(result.torznab?.infohash?.toString() ||
(magnet candidate)?.match(urn-btih regex)?.[1]?.toLowerCase())`. -/
def extractInfoHash (r : RawResult) : Option String :=
  validateInfoHash
    (jsOrStr (r.torznab.bind TorznabExt.infohash)
      ((magnetCandidate r).bind btihHashOf))

/-! ## The per-result record and the dedup loop (db.ts lines 310–351) -/

/-- `result.enclosure.find(e => e.type === 'application/x-bittorrent' &&
!e.url.includes('magnet:'))?.url` (db.ts lines 321–324). -/
def findDownloadUrl (r : RawResult) : Option String :=
  (r.enclosure.find? fun e =>
    e.type = "application/x-bittorrent" && !jsIncludes e.url "magnet:").map Enclosure.url

/-- JS `Number` on the torznab `size` attribute string: its decimal value,
`0` when the string is not a plain number (the NaN case is outside the
model; no claim touches it). -/
def jsNumberOfString (s : String) : Int :=
  (s.toNat?.map Int.ofNat).getD 0

/-- The object pushed for one raw result (db.ts lines 330–347), field for
field. -/
def mkTorrent (r : RawResult) : UnprocessedTorrent where
  hash := extractInfoHash r
  downloadUrl := findDownloadUrl r
  sources :=
    match r.torznab.bind TorznabExt.magneturl with
    | some m => if m ≠ "" then extractTrackersFromMagnet m else []
    | none => []
  seeders :=
    match r.torznab.bind TorznabExt.seeders with
    | some n => if n ≠ -1 && n ≠ 999 then some n else none
    | none => none
  indexer := r.jackettindexer.map JackettIndexer.name
  title := r.title
  size :=
    match r.size with
    | some n => n
    | none =>
      match r.torznab.bind TorznabExt.size with
      | some s => if s ≠ "" then jsNumberOfString s else 0
      | none => 0
  type := "torrent"

/-- The loop body of `_searchTorrents` (db.ts lines 319–348): `seenTorrents`
is the JS `Set<string>` of dedup keys already seen, the result list is
emitted in push order. -/
def searchTorrentsGo (seenTorrents : List String) :
    List RawResult → List UnprocessedTorrent
  | [] => []
  | result :: rest =>
    let infoHash := extractInfoHash result
    let downloadUrl := findDownloadUrl result
    if !jsTruthy infoHash && !jsTruthy downloadUrl then
      searchTorrentsGo seenTorrents rest
    else
      let key :=
        match infoHash with
        | some h => h
        | none => downloadUrl.getD ""
      if seenTorrents.contains key then searchTorrentsGo seenTorrents rest
      else mkTorrent result :: searchTorrentsGo (key :: seenTorrents) rest

/-- `TorznabAddon._searchTorrents` after the raw results have been
collected: one pass with an initially empty seen set. -/
def searchTorrents (results : List RawResult) : List UnprocessedTorrent :=
  searchTorrentsGo [] results

/-- The dedup key of one raw result, as db.ts line 327 computes it
(`infoHash ?? downloadUrl!`); `none` when the result is dropped by the
guard on line 326. -/
def torrentKey (r : RawResult) : Option String :=
  let infoHash := extractInfoHash r
  let downloadUrl := findDownloadUrl r
  if !jsTruthy infoHash && !jsTruthy downloadUrl then none
  else
    some
      (match infoHash with
      | some h => h
      | none => downloadUrl.getD "")

/-- Follows the claim's words (the spec's §4.5 step 4 and §5): keep, among
the raw results sharing a dedup key, exactly the first one in input order;
results with no key are dropped.  `seen` is the set of keys already taken. -/
def firstSeenDedup (seen : List String) : List RawResult → List RawResult
  | [] => []
  | r :: rest =>
    match torrentKey r with
    | none => firstSeenDedup seen rest
    | some k =>
      if seen.contains k then firstSeenDedup seen rest
      else r :: firstSeenDedup (k :: seen) rest

/-! ## The identifier resolver (`IdParser`, id-parser.ts) -/

/-- The `ID_TYPES` enumeration (id-parser.ts lines 1–16). -/
inductive IdType where
  | animePlanetId
  | animecountdownId
  | anidbId
  | anilistId
  | anisearchId
  | imdbId
  | kitsuId
  | livechartId
  | malId
  | notifyMoeId
  | simklId
  | themoviedbId
  | thetvdbId
  | traktId
deriving DecidableEq

/-- A parsed id value: `string | number` in the source (`format` yields a
string for imdb and notify.moe, a number elsewhere). -/
inductive IdValue where
  | str (s : String)
  | num (n : Nat)
deriving DecidableEq

/-- Decimal digits of a natural number, least significant first, with
explicit fuel (always sufficient at `n + 1`) so that evaluation is
structural. -/
def natDigitsRevFuel : Nat → Nat → List Char
  | 0, _ => []
  | fuel + 1, n =>
    if n < 10 then [Nat.digitChar n]
    else Nat.digitChar (n % 10) :: natDigitsRevFuel fuel (n / 10)

/-- Decimal rendering of a natural number, least significant digit first. -/
def natDigitsRev (n : Nat) : List Char :=
  natDigitsRevFuel (n + 1) n

/-- Decimal rendering of a natural number — the JS number-to-string
conversion used by template literals, faithful for magnitudes below
`1e21`: JS renders integers below that bound as their full decimal
digits, and switches to exponential notation (`1.11e+21`) at and above
it.  The identifier round-trip theorem restricts itself to numeric
values below `2 ^ 53`, inside this bound, so the exponential branch is
never reached there. -/
def natToDecimal (n : Nat) : String :=
  String.mk (natDigitsRev n).reverse

/-- JS template-literal interpolation of an id value; the `.num` branch
inherits `natToDecimal`'s domain of faithfulness (values below `1e21`). -/
def IdValue.toJs : IdValue → String
  | .str s => s
  | .num n => natToDecimal n

/-- JS template-literal interpolation of an optional string: an absent
(`undefined`) season or episode interpolates as the text `"undefined"`. -/
def jsTemplate : Option String → String
  | none => "undefined"
  | some s => s

/-- The JS numeric value of a captured `\d+` group (`Number(id)`). -/
def digitsToNat (cs : List Char) : Nat :=
  cs.foldl (fun n c => 10 * n + (c.toNat - 48)) 0

/-- `Number(id)` on a captured digit string.  The source yields an
IEEE-754 double, which is exact only for values up to `2 ^ 53`; this
embedding keeps the exact natural number, so statements that depend on
the numeric value (the identifier round-trip) carry an explicit
`< 2 ^ 53` bound confining them to the domain where the two agree. -/
def jsNumberOfDigits (s : String) : Nat :=
  digitsToNat s.toList

/-- `ParsedId` (id-parser.ts lines 34–47); `generator` is carried along as
the source stores the scheme's generator function on the parsed object. -/
structure ParsedId where
  type : IdType
  value : IdValue
  fullId : String
  externalType : String
  mediaType : String
  season : Option String := none
  episode : Option String := none
  generator : IdValue → Option String → Option String → String

/-- One scheme definition (id-parser.ts lines 49–64); `run` implements the
scheme's anchored regex, returning the captures `(id, season?, episode?)`. -/
structure IdParserDefinition where
  type : IdType
  externalType : String
  prefixes : List String
  run : String → Option (String × Option String × Option String)
  format : String → IdValue
  generator : IdValue → Option String → Option String → String

/-- `[:-]?` — consume one optional separator.  The character after it in
every scheme regex is a digit or alphanumeric, never `:` or `-`, so the
greedy consume never needs to backtrack. -/
def skipOptSep : List Char → List Char
  | [] => []
  | c :: cs => if c = ':' ∨ c = '-' then cs else c :: cs

/-- Greedy `\d+`: the maximal non-empty digit run and the rest. -/
def takeDigits1 (cs : List Char) : Option (List Char × List Char) :=
  let ds := cs.takeWhile Char.isDigit
  if ds.isEmpty then none else some (ds, cs.dropWhile Char.isDigit)

/-- `[:-]?(?<id>\d+)(?::(?<season>\d+):(?<episode>\d+))?$` after the scheme
prefix (imdb, tvdb, tmdb). -/
def runSeasonEpisodeTail (cs : List Char) :
    Option (String × Option String × Option String) :=
  match takeDigits1 (skipOptSep cs) with
  | none => none
  | some (id, rest) =>
    match rest with
    | [] => some (String.mk id, none, none)
    | ':' :: r1 =>
      match takeDigits1 r1 with
      | none => none
      | some (se, r2) =>
        match r2 with
        | ':' :: r3 =>
          match takeDigits1 r3 with
          | none => none
          | some (ep, r4) =>
            if r4.isEmpty then
              some (String.mk id, some (String.mk se), some (String.mk ep))
            else none
        | _ => none
    | _ => none

/-- `[:-]?(?<id>\d+)(?::(?<episode>\d+))?$` after the scheme prefix
(mal, kitsu, anilist, anidb). -/
def runEpisodeTail (cs : List Char) :
    Option (String × Option String × Option String) :=
  match takeDigits1 (skipOptSep cs) with
  | none => none
  | some (id, rest) =>
    match rest with
    | [] => some (String.mk id, none, none)
    | ':' :: r1 =>
      match takeDigits1 r1 with
      | none => none
      | some (ep, r2) =>
        if r2.isEmpty then some (String.mk id, none, some (String.mk ep))
        else none
    | _ => none

/-- `[:-]?(?<id>\d+)$` after the scheme prefix (animeplanet, acd,
anisearch, simkl). -/
def runIdOnlyTail (cs : List Char) :
    Option (String × Option String × Option String) :=
  match takeDigits1 (skipOptSep cs) with
  | none => none
  | some (id, rest) => if rest.isEmpty then some (String.mk id, none, none) else none

/-- `[:-]?(?<id>[a-zA-Z0-9]+)$` after the scheme prefix (notify.moe). -/
def runAlnumTail (cs : List Char) :
    Option (String × Option String × Option String) :=
  let after := skipOptSep cs
  let ds := after.takeWhile Char.isAlphanum
  if ds.isEmpty then none
  else if (after.dropWhile Char.isAlphanum).isEmpty then
    some (String.mk ds, none, none)
  else none

/-- The prefix alternation `(?:p1|p2|…)`: alternatives are tried in order
and, when one matches but the tail then fails, the next is tried — the
regex backtracking over (for example) `anidb|anidb_id|anidbid`. -/
def tryPrefixes
    (tail : List Char → Option (String × Option String × Option String)) :
    List String → List Char → Option (String × Option String × Option String)
  | [], _ => none
  | p :: ps, s =>
    match stripPrefixExact p.toList s with
    | some after =>
      match tail after with
      | some g => some g
      | none => tryPrefixes tail ps s
    | none => tryPrefixes tail ps s

namespace IdParser

/-!  `IdParser.ID_PARSERS` (id-parser.ts lines 67–166): the twelve scheme
definitions in declaration order, each with its prefixes, regex (as `run`),
`format` and `generator` translated clause for clause, one named
definition per scheme.  The generators interpolate with JS
template-literal semantics (`jsTemplate`), so an absent season or episode
becomes the text `"undefined"`. -/

/-- id-parser.ts lines 68–75. -/
def imdbDef : IdParserDefinition where
  type := .imdbId
  externalType := "imdb_id"
  prefixes := ["tt", "imdb"]
  run := fun s => tryPrefixes runSeasonEpisodeTail ["tt", "imdb"] s.toList
  format := fun id => .str ("tt" ++ id)
  generator := fun v s e => v.toJs ++ ":" ++ jsTemplate s ++ ":" ++ jsTemplate e

/-- id-parser.ts lines 76–83. -/
def malDef : IdParserDefinition where
  type := .malId
  externalType := "mal_id"
  prefixes := ["mal"]
  run := fun s => tryPrefixes runEpisodeTail ["mal"] s.toList
  format := fun id => .num (jsNumberOfDigits id)
  generator := fun v _ e => "mal:" ++ v.toJs ++ ":" ++ jsTemplate e

/-- id-parser.ts lines 84–92. -/
def thetvdbDef : IdParserDefinition where
  type := .thetvdbId
  externalType := "thetvdb_id"
  prefixes := ["tvdb"]
  run := fun s => tryPrefixes runSeasonEpisodeTail ["tvdb"] s.toList
  format := fun id => .num (jsNumberOfDigits id)
  generator := fun v s e => "tvdb:" ++ v.toJs ++ ":" ++ jsTemplate s ++ ":" ++ jsTemplate e

/-- id-parser.ts lines 93–101. -/
def themoviedbDef : IdParserDefinition where
  type := .themoviedbId
  externalType := "themoviedb_id"
  prefixes := ["tmdb"]
  run := fun s => tryPrefixes runSeasonEpisodeTail ["tmdb"] s.toList
  format := fun id => .num (jsNumberOfDigits id)
  generator := fun v s e => "tmdb:" ++ v.toJs ++ ":" ++ jsTemplate s ++ ":" ++ jsTemplate e

/-- id-parser.ts lines 102–109. -/
def kitsuDef : IdParserDefinition where
  type := .kitsuId
  externalType := "kitsu_id"
  prefixes := ["kitsu"]
  run := fun s => tryPrefixes runEpisodeTail ["kitsu"] s.toList
  format := fun id => .num (jsNumberOfDigits id)
  generator := fun v _ e => "kitsu:" ++ v.toJs ++ ":" ++ jsTemplate e

/-- id-parser.ts lines 110–117. -/
def anilistDef : IdParserDefinition where
  type := .anilistId
  externalType := "anilist_id"
  prefixes := ["anilist"]
  run := fun s => tryPrefixes runEpisodeTail ["anilist"] s.toList
  format := fun id => .num (jsNumberOfDigits id)
  generator := fun v _ e => "anilist:" ++ v.toJs ++ ":" ++ jsTemplate e

/-- id-parser.ts lines 118–125. -/
def anidbDef : IdParserDefinition where
  type := .anidbId
  externalType := "anidb_id"
  prefixes := ["anidb", "anidb_id", "anidbid"]
  run := fun s => tryPrefixes runEpisodeTail ["anidb", "anidb_id", "anidbid"] s.toList
  format := fun id => .num (jsNumberOfDigits id)
  generator := fun v _ e => "anidb:" ++ v.toJs ++ ":" ++ jsTemplate e

/-- id-parser.ts lines 126–133. -/
def animePlanetDef : IdParserDefinition where
  type := .animePlanetId
  externalType := "anime-planet_id"
  prefixes := ["animeplanet", "ap"]
  run := fun s => tryPrefixes runIdOnlyTail ["animeplanet", "ap"] s.toList
  format := fun id => .num (jsNumberOfDigits id)
  generator := fun v _ e => "animeplanet:" ++ v.toJs ++ ":" ++ jsTemplate e

/-- id-parser.ts lines 134–141. -/
def animecountdownDef : IdParserDefinition where
  type := .animecountdownId
  externalType := "animecountdown_id"
  prefixes := ["acd"]
  run := fun s => tryPrefixes runIdOnlyTail ["acd"] s.toList
  format := fun id => .num (jsNumberOfDigits id)
  generator := fun v _ e => "acd:" ++ v.toJs ++ ":" ++ jsTemplate e

/-- id-parser.ts lines 142–149. -/
def anisearchDef : IdParserDefinition where
  type := .anisearchId
  externalType := "anisearch_id"
  prefixes := ["anisearch"]
  run := fun s => tryPrefixes runIdOnlyTail ["anisearch"] s.toList
  format := fun id => .num (jsNumberOfDigits id)
  generator := fun v _ e => "anisearch:" ++ v.toJs ++ ":" ++ jsTemplate e

/-- id-parser.ts lines 150–157. -/
def notifyMoeDef : IdParserDefinition where
  type := .notifyMoeId
  externalType := "notify.moe_id"
  prefixes := ["notifymoe", "nm"]
  run := fun s => tryPrefixes runAlnumTail ["notifymoe", "nm"] s.toList
  format := fun id => .str id
  generator := fun v _ e => "notifymoe:" ++ v.toJs ++ ":" ++ jsTemplate e

/-- id-parser.ts lines 158–165. -/
def simklDef : IdParserDefinition where
  type := .simklId
  externalType := "simkl_id"
  prefixes := ["simkl"]
  run := fun s => tryPrefixes runIdOnlyTail ["simkl"] s.toList
  format := fun id => .num (jsNumberOfDigits id)
  generator := fun v _ e => "simkl:" ++ v.toJs ++ ":" ++ jsTemplate e

/-- The declaration-order list of the twelve scheme definitions. -/
def ID_PARSERS : List IdParserDefinition :=
  [imdbDef, malDef, thetvdbDef, themoviedbDef, kitsuDef, anilistDef,
   anidbDef, animePlanetDef, animecountdownDef, anisearchDef,
   notifyMoeDef, simklDef]

/-- The `ParsedId` built from one matching definition (id-parser.ts lines
181–192): season and episode are set exactly when the groups captured. -/
def buildParsed (p : IdParserDefinition) (stremioId mediaType : String)
    (g : String × Option String × Option String) : ParsedId where
  type := p.type
  value := p.format g.1
  fullId := stremioId
  externalType := p.externalType
  mediaType := mediaType
  season := g.2.1
  episode := g.2.2
  generator := p.generator

/-- The loop of `IdParser.parse` (id-parser.ts lines 177–195): definitions
are tried in order, the first structural match wins. -/
def parseGo (stremioId mediaType : String) :
    List IdParserDefinition → Option ParsedId
  | [] => none
  | p :: rest =>
    match p.run stremioId with
    | some g => some (buildParsed p stremioId mediaType g)
    | none => parseGo stremioId mediaType rest

/-- `IdParser.parse` (id-parser.ts lines 176–198); `none` is the source's
`null` ("not recognized").  A pure function of its two arguments. -/
def parse (stremioId mediaType : String) : Option ParsedId :=
  parseGo stremioId mediaType ID_PARSERS

/-- `IdParser.getPrefixes` (id-parser.ts lines 170–174). -/
def getPrefixes (types : List IdType) : List String :=
  ((ID_PARSERS.filter fun p => types.contains p.type).map
    IdParserDefinition.prefixes).flatten

end IdParser

/-! ## URL model and the Custom preset (custom.ts) -/

/-- The parts of a WHATWG `URL` object that the presets read. -/
structure JsURL where
  protocol : String
  host : String
  pathname : String
  search : String
deriving DecidableEq

/-- The first occurrence of `pat` inside `s`: `some (before, after)` split
around it, `none` when absent. -/
def breakOnCC (pat : List Char) : List Char → Option (List Char × List Char)
  | [] => if pat.isEmpty then some ([], []) else none
  | c :: cs =>
    if pat.isPrefixOf (c :: cs) then some ([], (c :: cs).drop pat.length)
    else
      match breakOnCC pat cs with
      | some (pre, post) => some (c :: pre, post)
      | none => none

/-- Simplified model of the `new URL(...)` constructor for absolute URLs of
the form `scheme://host[/path][?query]`: `none` models the constructor
throwing on input that is not a parseable URL.  Path-relative resolution,
userinfo, ports and fragments are outside the model; no claim touches
them. -/
def parseURL (s : String) : Option JsURL :=
  match breakOnCC "://".toList s.toList with
  | none => none
  | some (schemeCs, rest) =>
    if schemeCs ≠ [] && schemeCs.all Char.isAlpha then
      let host := rest.takeWhile fun c => c ≠ '/' && c ≠ '?' && c ≠ '#'
      let tail := rest.drop host.length
      if host.isEmpty then none
      else
        let path := tail.takeWhile fun c => c ≠ '?' && c ≠ '#'
        some
          { protocol := String.mk schemeCs ++ ":"
            host := String.mk host
            pathname := if path.isEmpty then "/" else String.mk path
            search := String.mk (tail.drop path.length) }
    else none

/-- JS truthiness of an optional number: `undefined`, `0` (and `NaN`,
outside the model) are falsy. -/
def jsTruthyInt : Option Int → Bool
  | none => false
  | some n => n ≠ 0

/-- The options `CustomPreset.generateAddon` reads from its
`Record<string, any>`; an absent key is `none`. -/
structure CustomOptions where
  name : Option String := none
  manifestUrl : Option String := none
  libraryAddon : Option Bool := none
  resources : Option (List String) := none
  mediaTypes : Option (List String) := none
  timeout : Option Int := none
  formatPassthrough : Option Bool := none
  streamPassthrough : Option Bool := none
  resultPassthrough : Option Bool := none
  forceToTop : Option Bool := none
deriving DecidableEq

/-- The environment values `CustomPreset.METADATA` reads. -/
structure Env where
  DEFAULT_TIMEOUT : Int
  DEFAULT_USER_AGENT : String
deriving DecidableEq

/-- The fields of `CustomPreset.METADATA` (custom.ts lines 110–123) that
`generateAddons`/`generateAddon` consult. -/
structure CustomMetadata where
  ID : String
  NAME : String
  TIMEOUT : Int
  USER_AGENT : String
deriving DecidableEq

/-- The `Addon` record built by `CustomPreset.generateAddon` (custom.ts
lines 146–171).  The `preset.options` echo of the raw options object is
not modelled (no claim reads it); `preset.type` is kept as `presetType`
and the `'User-Agent'` header as `userAgentHeader`. -/
structure Addon where
  name : String
  manifestUrl : Option String
  enabled : Bool
  library : Bool
  resources : Option (List String)
  mediaTypes : List String
  timeout : Int
  presetType : String
  formatPassthrough : Bool
  resultPassthrough : Bool
  forceToTop : Bool
  userAgentHeader : String
deriving DecidableEq

namespace CustomPreset

/-- `CustomPreset.METADATA` (custom.ts lines 110–123), the four consulted
fields. -/
def METADATA (env : Env) : CustomMetadata where
  ID := "custom"
  NAME := "Custom"
  TIMEOUT := env.DEFAULT_TIMEOUT
  USER_AGENT := env.DEFAULT_USER_AGENT

/-- `CustomPreset.generateAddon` (custom.ts lines 146–171).  `name` and
`timeout` use `||` (falsy coercion), the booleans use `??`;
`options.resources || undefined` keeps any array (arrays are truthy) and
`options.mediaTypes || []` likewise, so both reduce to the option itself
with `[]` as the absent default for `mediaTypes`.  `userData` is unused by
the body and therefore not a parameter here. -/
def generateAddon (env : Env) (options : CustomOptions) : Addon where
  name :=
    match options.name with
    | some s => if s ≠ "" then s else (METADATA env).NAME
    | none => (METADATA env).NAME
  manifestUrl := options.manifestUrl
  enabled := true
  library := options.libraryAddon.getD false
  resources := options.resources
  mediaTypes := options.mediaTypes.getD []
  timeout :=
    match options.timeout with
    | some t => if t ≠ 0 then t else (METADATA env).TIMEOUT
    | none => (METADATA env).TIMEOUT
  presetType := (METADATA env).ID
  formatPassthrough :=
    (options.formatPassthrough.orElse fun _ => options.streamPassthrough).getD false
  resultPassthrough := options.resultPassthrough.getD false
  forceToTop := options.forceToTop.getD false
  userAgentHeader := (METADATA env).USER_AGENT

/-- The message of the error thrown for a bad manifest URL (custom.ts
lines 133–135 and 138–140); `${options.name}` interpolates an absent name
as `"undefined"`. -/
def invalidManifestMsg (options : CustomOptions) : String :=
  jsTemplate options.name ++
    " has an invalid Manifest URL. It must be a valid link to a manifest.json"

/-- `CustomPreset.generateAddons` (custom.ts lines 125–144): `new
URL(options.manifestUrl)` throwing (also on an absent option) is caught
and rethrown as the validation error; a parsed URL whose `pathname` does
not end in `/manifest.json` gets the same error; otherwise exactly one
addon is returned.  `Except.error` is the thrown `Error`'s message. -/
def generateAddons (env : Env) (options : CustomOptions) :
    Except String (List Addon) :=
  match options.manifestUrl with
  | none => .error (invalidManifestMsg options)
  | some raw =>
    match parseURL raw with
    | none => .error (invalidManifestMsg options)
    | some url =>
      if strEndsWith url.pathname "/manifest.json" then
        .ok [generateAddon env options]
      else .error (invalidManifestMsg options)

end CustomPreset

/-! ## The Jackett preset (jackett.ts) -/

/-- The environment values `JackettPreset.generateManifestUrl` reads. -/
structure JackettEnv where
  BUILTIN_JACKETT_URL : Option String := none
  BUILTIN_JACKETT_API_KEY : Option String := none
deriving DecidableEq

/-- The options `JackettPreset.generateManifestUrl` reads. -/
structure JackettOptions where
  jackettUrl : Option String := none
  jackettApiKey : Option String := none
deriving DecidableEq

/-- The config object built by `JackettPreset.generateManifestUrl`
(jackett.ts lines 129–135), before it is base64-JSON-encoded into the
manifest address.  `getBaseConfig`/`base64EncodeJSON` live outside the
repository files here; the claims are about credential selection and
failure, which this structure captures. -/
structure JackettManifestConfig where
  url : String
  apiPath : String
  apiKey : String
  forceQuerySearch : Bool
deriving DecidableEq

/-- `.replace(/\/$/, '')` — drop one trailing slash. -/
def stripTrailingSlash (s : String) : String :=
  if strEndsWith s "/" then String.mk s.toList.dropLast else s

namespace JackettPreset

/-- `JackettPreset.generateManifestUrl` (jackett.ts lines 109–139):
user-supplied credentials are taken when either of the two options is
truthy, the environment defaults only when neither is; missing either
selected credential throws.  `Except.error` is the thrown `Error`'s
message, `Except.ok` the config embedded into the returned address. -/
def generateManifestUrl (env : JackettEnv) (options : JackettOptions) :
    Except String JackettManifestConfig :=
  let creds : Option String × Option String :=
    if jsTruthy options.jackettUrl || jsTruthy options.jackettApiKey then
      (options.jackettUrl, options.jackettApiKey)
    else (env.BUILTIN_JACKETT_URL, env.BUILTIN_JACKETT_API_KEY)
  if !jsTruthy creds.1 || !jsTruthy creds.2 then
    .error "Jackett URL and API Key are required"
  else
    .ok
      { url := stripTrailingSlash (creds.1.getD "") ++
          "/api/v2.0/indexers/all/results/torznab"
        apiPath := "/api"
        apiKey := creds.2.getD ""
        forceQuerySearch := true }

end JackettPreset

/-! ## Properties of the dedup loop -/

/-- The loop and the first-seen-wins filter agree: every emission of
`searchTorrentsGo` is `mkTorrent` of the first raw result carrying its
dedup key. -/
theorem searchTorrentsGo_eq_firstSeen (seen : List String) (l : List RawResult) :
    searchTorrentsGo seen l = (firstSeenDedup seen l).map mkTorrent := by
  induction l generalizing seen with
  | nil => rfl
  | cons r rest ih =>
    simp only [searchTorrentsGo, firstSeenDedup, torrentKey]
    by_cases hg : (!jsTruthy (extractInfoHash r) && !jsTruthy (findDownloadUrl r)) = true
    · simp [hg, ih]
    · simp only [hg, if_false, Bool.false_eq_true]
      by_cases hc :
          (match extractInfoHash r with
            | some h => h
            | none => (findDownloadUrl r).getD "") ∈ seen
      · simp [hc, ih]
      · simp [hc, ih]

/-- Every kept raw result carries a dedup key that was not yet seen. -/
theorem mem_firstSeenDedup {seen : List String} {l : List RawResult} {r : RawResult}
    (h : r ∈ firstSeenDedup seen l) :
    ∃ k, torrentKey r = some k ∧ k ∉ seen := by
  induction l generalizing seen with
  | nil => simp [firstSeenDedup] at h
  | cons a rest ih =>
    simp only [firstSeenDedup] at h
    match hk : torrentKey a with
    | none => rw [hk] at h; exact ih h
    | some k =>
      rw [hk] at h
      by_cases hc : k ∈ seen
      · simp [hc] at h; exact ih h
      · simp [hc] at h
        rcases h with rfl | h
        · exact ⟨k, hk, hc⟩
        · obtain ⟨k2, hk2, hc2⟩ := ih h
          refine ⟨k2, hk2, fun hmem => hc2 (by simp [hmem])⟩

/-- The kept raw results have pairwise distinct dedup keys. -/
theorem pairwise_key_firstSeenDedup (seen : List String) (l : List RawResult) :
    List.Pairwise (fun a b => torrentKey a ≠ torrentKey b) (firstSeenDedup seen l) := by
  induction l generalizing seen with
  | nil => simp [firstSeenDedup]
  | cons a rest ih =>
    simp only [firstSeenDedup]
    match hk : torrentKey a with
    | none => exact ih seen
    | some k =>
      by_cases hc : k ∈ seen
      · simp [hc]; exact ih seen
      · show List.Pairwise _
            (if seen.contains k = true then firstSeenDedup seen rest
             else a :: firstSeenDedup (k :: seen) rest)
        rw [if_neg (by simpa using hc)]
        refine List.Pairwise.cons (fun b hb => ?_) (ih (k :: seen))
        obtain ⟨k2, hk2, hc2⟩ := mem_firstSeenDedup hb
        rw [hk, hk2]
        intro he
        exact hc2 (by simp [(Option.some_inj.mp he).symm])

/-- The filter keeps only raw results of the input. -/
theorem firstSeenDedup_subset {seen : List String} {l : List RawResult} {r : RawResult}
    (h : r ∈ firstSeenDedup seen l) : r ∈ l := by
  induction l generalizing seen with
  | nil => simp [firstSeenDedup] at h
  | cons a rest ih =>
    simp only [firstSeenDedup] at h
    match hk : torrentKey a with
    | none => rw [hk] at h; exact List.mem_cons_of_mem a (ih h)
    | some k =>
      rw [hk] at h
      by_cases hc : k ∈ seen
      · simp [hc] at h; exact List.mem_cons_of_mem a (ih h)
      · simp [hc] at h
        rcases h with rfl | h
        · exact List.mem_cons_self r rest
        · exact List.mem_cons_of_mem a (ih h)

/-- A key present on a raw result is the extracted info hash when that is
present, else the found download URL. -/
theorem torrentKey_eq {r : RawResult} {k : String} (h : torrentKey r = some k) :
    k = match extractInfoHash r with
        | some s => s
        | none => (findDownloadUrl r).getD "" := by
  simp only [torrentKey] at h
  split at h
  · exact absurd h (by simp)
  · exact (Option.some_inj.mp h).symm

/-- A keyed raw result passed the guard: one of the two fields is truthy. -/
theorem torrentKey_guard {r : RawResult} {k : String} (h : torrentKey r = some k) :
    jsTruthy (extractInfoHash r) = true ∨ jsTruthy (findDownloadUrl r) = true := by
  simp only [torrentKey] at h
  split at h
  · exact absurd h (by simp)
  · rename_i hguard
    revert hguard
    cases jsTruthy (extractInfoHash r) <;> cases jsTruthy (findDownloadUrl r) <;> simp

/-- A truthy optional string is present. -/
theorem jsTruthy_ne_none {o : Option String} (h : jsTruthy o = true) : o ≠ none := by
  cases o <;> simp_all [jsTruthy]

/-- The pairwise-compatibility relation of two emitted records: no shared
non-empty info hash, and distinct download URLs whenever both hashes are
absent. -/
def RecordsDistinct (t1 t2 : UnprocessedTorrent) : Prop :=
  (∀ h : String, t1.hash = some h → t2.hash = some h → h = "") ∧
  (t1.hash = none → t2.hash = none → t1.downloadUrl ≠ t2.downloadUrl)

/-- Two raw results whose records share a non-empty hash, or share a
download URL with both hashes absent, share a dedup key. -/
theorem recordsDistinct_of_key_ne {r1 r2 : RawResult} {k1 k2 : String}
    (h1 : torrentKey r1 = some k1) (h2 : torrentKey r2 = some k2)
    (hne : torrentKey r1 ≠ torrentKey r2) :
    RecordsDistinct (mkTorrent r1) (mkTorrent r2) := by
  have e1 := torrentKey_eq h1
  have e2 := torrentKey_eq h2
  constructor
  · intro h hh1 hh2
    exfalso
    apply hne
    rw [h1, h2]
    have hx1 : (mkTorrent r1).hash = extractInfoHash r1 := rfl
    have hx2 : (mkTorrent r2).hash = extractInfoHash r2 := rfl
    rw [hx1] at hh1; rw [hx2] at hh2
    rw [hh1] at e1; rw [hh2] at e2
    simp only [e1, e2]
  · intro hn1 hn2 hdl
    apply hne
    rw [h1, h2]
    have hx1 : (mkTorrent r1).hash = extractInfoHash r1 := rfl
    have hx2 : (mkTorrent r2).hash = extractInfoHash r2 := rfl
    rw [hx1] at hn1; rw [hx2] at hn2
    have hd1 : (mkTorrent r1).downloadUrl = findDownloadUrl r1 := rfl
    have hd2 : (mkTorrent r2).downloadUrl = findDownloadUrl r2 := rfl
    rw [hd1, hd2] at hdl
    rw [hn1] at e1; rw [hn2] at e2
    simp only [e1, e2, hdl]

/-- The spec's end-to-end duplicate pair: the same info hash once via the
dedicated `torznab.infohash` field… -/
def exDupHashField : RawResult :=
  { torznab := some { infohash := some "0123456789abcdef0123456789abcdef01234567" }
    title := "Example.Movie.2024.1080p" }

/-- …and once via a magnet link. -/
def exDupMagnet : RawResult :=
  { torznab := some
      { magneturl :=
          some "magnet:?xt=urn:btih:0123456789ABCDEF0123456789ABCDEF01234567&tr=udp%3A%2F%2Ft" }
    title := "Example Movie 2024 1080p" }

/-- C1.  For every list of raw Torznab results, `_searchTorrents` emits no
two records with equal non-empty `infoHash` and no two records with equal
`downloadUrl` when `infoHash` is absent on both; the emitted sequence is
exactly `mkTorrent` of the raw results filtered to the first carrier of
each dedup key (info hash if present, else download URL) in input order,
so among raw results sharing a dedup key the first one wins.  The closed
conjunct runs the spec's end-to-end scenario: the same hash reported once
via the dedicated infohash field and once via a magnet link collapses to
one record. -/
theorem c1_dedup_first_seen_wins :
    (∀ results : List RawResult,
      searchTorrents results = (firstSeenDedup [] results).map mkTorrent ∧
      List.Pairwise RecordsDistinct (searchTorrents results)) ∧
    (searchTorrents [exDupHashField, exDupMagnet]).length = 1 := by
  constructor
  · intro results
    have hmap := searchTorrentsGo_eq_firstSeen [] results
    refine ⟨hmap, ?_⟩
    show List.Pairwise RecordsDistinct (searchTorrentsGo [] results)
    rw [hmap, List.pairwise_map]
    refine (pairwise_key_firstSeenDedup [] results).imp_of_mem ?_
    intro r1 r2 hm1 hm2 hne
    obtain ⟨k1, hk1, -⟩ := mem_firstSeenDedup hm1
    obtain ⟨k2, hk2, -⟩ := mem_firstSeenDedup hm2
    exact recordsDistinct_of_key_ne hk1 hk2 hne
  · decide

/-- A raw result whose only enclosure is a non-magnet, non-torrent link
type (and that carries no torznab hash fields). -/
def exOnlyBadEnclosure : RawResult :=
  { enclosure := [{ type := "text/html", url := "https://example.com/details/1" }] }

/-- C2.  A raw result from which no validated info hash is extracted and in
which no non-magnet torrent-file enclosure is found contributes nothing to
the output, whatever the seen-set and surrounding results; consequently
every emitted record has hash or download URL present; and the result
whose only enclosure is a non-magnet, non-torrent link type is dropped. -/
theorem c2_hash_or_url_required :
    (∀ (seen : List String) (rest : List RawResult) (r : RawResult),
      extractInfoHash r = none → findDownloadUrl r = none →
      searchTorrentsGo seen (r :: rest) = searchTorrentsGo seen rest) ∧
    (∀ (results : List RawResult) (t : UnprocessedTorrent),
      t ∈ searchTorrents results → t.hash ≠ none ∨ t.downloadUrl ≠ none) ∧
    searchTorrents [exOnlyBadEnclosure] = [] := by
  refine ⟨?_, ?_, by decide⟩
  · intro seen rest r h1 h2
    simp [searchTorrentsGo, h1, h2, jsTruthy]
  · intro results t ht
    rw [show searchTorrents results = searchTorrentsGo [] results from rfl,
      searchTorrentsGo_eq_firstSeen] at ht
    obtain ⟨r, hr, rfl⟩ := List.mem_map.mp ht
    obtain ⟨k, hk, -⟩ := mem_firstSeenDedup hr
    rcases torrentKey_guard hk with h | h
    · exact Or.inl (jsTruthy_ne_none h)
    · exact Or.inr (jsTruthy_ne_none h)

/-- A raw result reporting the given seeder value. -/
def exSeeders (n : Int) : RawResult :=
  { torznab := some { seeders := some n }, title := "t" }

/-- C3.  The emitted seeder count is present and equal to the raw torznab
value exactly when that value is a JS number different from the sentinels
`-1` and `999`; an absent or sentinel value yields an absent field, never
zero.  Concretely: raw `999` and `-1` yield absent, raw `42` yields `42`,
raw `0` yields `0`, and a result with no numeric value yields absent. -/
theorem c3_seeder_sentinels :
    (∀ (r : RawResult) (n : Int),
      (mkTorrent r).seeders = some n ↔
        r.torznab.bind TorznabExt.seeders = some n ∧ n ≠ -1 ∧ n ≠ 999) ∧
    (mkTorrent (exSeeders 999)).seeders = none ∧
    (mkTorrent (exSeeders (-1))).seeders = none ∧
    (mkTorrent (exSeeders 42)).seeders = some 42 ∧
    (mkTorrent (exSeeders 0)).seeders = some 0 ∧
    (mkTorrent { title := "t" }).seeders = none := by
  refine ⟨?_, by decide, by decide, by decide, by decide, by decide⟩
  intro r n
  show (match r.torznab.bind TorznabExt.seeders with
        | some m => if m ≠ -1 && m ≠ 999 then some m else none
        | none => none) = some n ↔ _
  match hs : r.torznab.bind TorznabExt.seeders with
  | none => simp
  | some m =>
    by_cases h1 : m = -1
    · simp [h1]; omega
    · by_cases h2 : m = 999
      · simp [h2]; omega
      · simp [h1, h2]
        intro he
        simp [he.symm, h1, h2]

/-- A raw result whose magnet URL appears only in a torrent-file enclosure
entry, not in the dedicated `torznab.magneturl` field. -/
def exMagnetEnclosureOnly : RawResult :=
  { enclosure :=
      [{ type := "application/x-bittorrent"
         url := "magnet:?xt=urn:btih:00112233445566778899aabbccddeeff00112233&tr=udp%3A%2F%2Ftx" }]
    title := "enc" }

/-- A raw result with a dedicated magnet field carrying two trackers. -/
def exMagnetField : RawResult :=
  { torznab := some
      { magneturl :=
          some "magnet:?xt=urn:btih:00112233445566778899aabbccddeeff00112233&tr=http://tr1/a&tr=udp://tr2/b" }
    title := "mag" }

/-- C9.  Every emitted record is `mkTorrent` of one collected raw result,
whose tracker list is the trackers parsed from the dedicated
`torznab.magneturl` field when that is truthy and is empty otherwise — in
particular a record whose magnet URL appears only in a torrent-file
enclosure entry (from which the hash is still extracted) gets an empty
tracker list, while a dedicated magnet field yields its `tr` entries. -/
theorem c9_sources_from_dedicated_magnet :
    (∀ (results : List RawResult) (t : UnprocessedTorrent),
      t ∈ searchTorrents results →
      ∃ r ∈ results, t = mkTorrent r ∧
        t.sources =
          match r.torznab.bind TorznabExt.magneturl with
          | some m => if m ≠ "" then extractTrackersFromMagnet m else []
          | none => []) ∧
    (searchTorrents [exMagnetEnclosureOnly] = [mkTorrent exMagnetEnclosureOnly] ∧
      (mkTorrent exMagnetEnclosureOnly).sources = [] ∧
      (mkTorrent exMagnetEnclosureOnly).hash =
        some "00112233445566778899aabbccddeeff00112233") ∧
    (mkTorrent exMagnetField).sources = ["http://tr1/a", "udp://tr2/b"] := by
  refine ⟨?_, ⟨by decide, by decide, by decide⟩, by decide⟩
  intro results t ht
  rw [show searchTorrents results = searchTorrentsGo [] results from rfl,
    searchTorrentsGo_eq_firstSeen] at ht
  obtain ⟨r, hr, rfl⟩ := List.mem_map.mp ht
  exact ⟨r, firstSeenDedup_subset hr, rfl, rfl⟩

/-- The claim's reading of the extraction, assembled from the spec's words:
check, in priority order, the dedicated `torznab.infohash` field, then the
`torznab.magneturl` field, then a magnet-bearing torrent enclosure URL;
from a magnet source take the 40 hex characters after the (possibly
percent-encoded) `urn:btih` marker, case-insensitively, folded to lower
case; pass the candidate through the validator, so a failing candidate is
absent, not an error. -/
def extractInfoHashSpec (r : RawResult) : Option String :=
  if jsTruthy (r.torznab.bind TorznabExt.infohash) then
    validateInfoHash (r.torznab.bind TorznabExt.infohash)
  else if jsTruthy (r.torznab.bind TorznabExt.magneturl) then
    validateInfoHash ((r.torznab.bind TorznabExt.magneturl).bind btihHashOf)
  else
    validateInfoHash ((enclosureMagnetUrl r).bind btihHashOf)

/-- A result whose only hash source is a magnet field with an upper-case
40-hex `urn:btih` hash. -/
def exUpperMagnet : RawResult :=
  { torznab := some
      { magneturl := some "magnet:?xt=urn:btih:ABCDEF0123456789ABCDEF0123456789ABCDEF01" } }

/-- A magnet candidate of only 39 hexadecimal characters. -/
def ex39Magnet : RawResult :=
  { torznab := some
      { magneturl := some "magnet:?xt=urn:btih:ABCDEF0123456789ABCDEF0123456789ABCDEF0" } }

/-- A magnet candidate whose 40 characters include a non-hex character. -/
def exNonHexMagnet : RawResult :=
  { torznab := some
      { magneturl := some "magnet:?xt=urn:btih:ABCDEF0123456789ABCDEF0123456789ABCDEFG1" } }

/-- A magnet URL with the percent-encoded `urn%3Abtih%3A` marker. -/
def exPctMagnet : RawResult :=
  { torznab := some
      { magneturl := some "magnet:?xt=urn%3Abtih%3Aabcdef0123456789abcdef0123456789abcdef01" } }

/-- A result with both a dedicated infohash field and a magnet field
carrying a different hash: the dedicated field wins. -/
def exInfohashPriority : RawResult :=
  { torznab := some
      { infohash := some "ffffffffffffffffffffffffffffffffffffffff"
        magneturl := some "magnet:?xt=urn:btih:abcdef0123456789abcdef0123456789abcdef01" } }

/-- C4.  `extractInfoHash` equals the spec's priority cascade — dedicated
infohash field first, then the magnet field, then a magnet-bearing torrent
enclosure, the magnet hash being the 40 hex characters after `urn:btih:`
(or its percent-encoded form) matched case-insensitively and folded to
lower case, all passed through `validateInfoHash`.  Concretely: an
upper-case magnet hash comes out lower-cased, a 39-character or non-hex
candidate yields an absent hash (not an error), the percent-encoded marker
matches, and the dedicated field takes priority over the magnet field. -/
theorem c4_extract_info_hash_spec :
    (∀ r : RawResult, extractInfoHash r = extractInfoHashSpec r) ∧
    extractInfoHash exUpperMagnet = some "abcdef0123456789abcdef0123456789abcdef01" ∧
    extractInfoHash ex39Magnet = none ∧
    extractInfoHash exNonHexMagnet = none ∧
    extractInfoHash exPctMagnet = some "abcdef0123456789abcdef0123456789abcdef01" ∧
    extractInfoHash exInfohashPriority =
      some "ffffffffffffffffffffffffffffffffffffffff" := by
  refine ⟨?_, by decide, by decide, by decide, by decide, by decide⟩
  intro r
  simp only [extractInfoHash, extractInfoHashSpec, magnetCandidate, jsOrStr]
  by_cases h1 : jsTruthy (r.torznab.bind TorznabExt.infohash) = true
  · simp [h1]
  · by_cases h2 : jsTruthy (r.torznab.bind TorznabExt.magneturl) = true
    · simp [h1, h2]
    · simp [h1, h2]

/-! ## Claims on the presets -/

/-- A contiguous run of `b` is still found after text is prepended. -/
theorem charsHaveInfix_append_left {pat b : List Char} (a : List Char)
    (h : charsHaveInfix pat b = true) : charsHaveInfix pat (a ++ b) = true := by
  induction a with
  | nil => simpa using h
  | cons c cs ih => simp [charsHaveInfix, ih]

/-- The validation error message always names the Manifest URL field. -/
theorem invalidManifestMsg_names_field (opts : CustomOptions) :
    jsIncludes (CustomPreset.invalidManifestMsg opts) "Manifest URL" = true := by
  show charsHaveInfix _ ((jsTemplate opts.name ++ _).toList) = true
  rw [show ∀ s t : String, (s ++ t).toList = s.toList ++ t.toList from
    fun s t => String.data_append s t]
  exact charsHaveInfix_append_left _ (by decide)

/-- A sample environment for the closed conjuncts. -/
def env0 : Env := { DEFAULT_TIMEOUT := 15000, DEFAULT_USER_AGENT := "AIOStreams" }

/-- The spec's good manifest option set. -/
def exGoodManifest : CustomOptions :=
  { name := some "X", manifestUrl := some "https://example.com/foo/manifest.json" }

/-- The spec's bad manifest option set (missing the `/manifest.json`
suffix). -/
def exBadSuffix : CustomOptions :=
  { name := some "X", manifestUrl := some "https://example.com/foo" }

/-- An option set whose manifest URL is not parseable at all. -/
def exNotAUrl : CustomOptions :=
  { name := some "X", manifestUrl := some "not a url" }

deriving instance DecidableEq for Except

/-- C7.  `CustomPreset.generateAddons` succeeds with exactly one addon
precisely when the manifestUrl option parses as a URL whose path ends in
`/manifest.json`; every other outcome is the structured validation error
naming the Manifest URL field — the two outcomes are exhaustive, so the
raw URL-parsing failure never escapes as anything else.  Closed conjuncts
run the spec's case law and a non-parseable address. -/
theorem c7_custom_manifest_url_validation :
    (∀ (env : Env) (opts : CustomOptions),
      ((∃ a, CustomPreset.generateAddons env opts = .ok [a]) ↔
        ∃ raw url, opts.manifestUrl = some raw ∧ parseURL raw = some url ∧
          strEndsWith url.pathname "/manifest.json" = true) ∧
      (CustomPreset.generateAddons env opts =
          .ok [CustomPreset.generateAddon env opts] ∨
        CustomPreset.generateAddons env opts =
          .error (CustomPreset.invalidManifestMsg opts)) ∧
      (∀ e, CustomPreset.generateAddons env opts = .error e →
        e = CustomPreset.invalidManifestMsg opts ∧
          jsIncludes e "Manifest URL" = true)) ∧
    CustomPreset.generateAddons env0 exGoodManifest =
      .ok [CustomPreset.generateAddon env0 exGoodManifest] ∧
    CustomPreset.generateAddons env0 exBadSuffix =
      .error "X has an invalid Manifest URL. It must be a valid link to a manifest.json" ∧
    CustomPreset.generateAddons env0 exNotAUrl =
      .error "X has an invalid Manifest URL. It must be a valid link to a manifest.json" := by
  have hcases : ∀ (env : Env) (opts : CustomOptions),
      CustomPreset.generateAddons env opts =
          .ok [CustomPreset.generateAddon env opts] ∧
        (∃ raw url, opts.manifestUrl = some raw ∧ parseURL raw = some url ∧
          strEndsWith url.pathname "/manifest.json" = true) ∨
      CustomPreset.generateAddons env opts =
          .error (CustomPreset.invalidManifestMsg opts) ∧
        ¬(∃ raw url, opts.manifestUrl = some raw ∧ parseURL raw = some url ∧
          strEndsWith url.pathname "/manifest.json" = true) := by
    intro env opts
    unfold CustomPreset.generateAddons
    rcases hraw : opts.manifestUrl with _ | raw
    · exact Or.inr ⟨rfl, by simp⟩
    · rcases hurl : parseURL raw with _ | url
      · refine Or.inr ⟨by simp [hurl], ?_⟩
        rintro ⟨raw2, url2, h1, h2, -⟩
        rw [Option.some_inj.mp h1] at hurl
        exact absurd h2 (by simp [hurl])
      · by_cases hend : strEndsWith url.pathname "/manifest.json" = true
        · exact Or.inl ⟨by simp [hurl, hend], ⟨raw, url, rfl, hurl, hend⟩⟩
        · refine Or.inr ⟨by simp [hurl, hend], ?_⟩
          rintro ⟨raw2, url2, h1, h2, hend2⟩
          rw [Option.some_inj.mp h1] at hurl
          rw [hurl] at h2
          rw [Option.some_inj.mp h2] at hend
          exact hend hend2
  refine ⟨?_, by decide, by decide, by decide⟩
  intro env opts
  rcases hcases env opts with ⟨hok, hx⟩ | ⟨herr, hx⟩
  · refine ⟨⟨fun _ => hx, fun _ => ⟨_, hok⟩⟩, Or.inl hok, ?_⟩
    intro e he
    rw [hok] at he
    exact absurd he (by simp)
  · refine ⟨⟨?_, fun h => absurd h hx⟩, Or.inr herr, ?_⟩
    · rintro ⟨a, ha⟩
      rw [herr] at ha
      exact absurd ha (by simp)
    · intro e he
      rw [herr] at he
      have h2 : CustomPreset.invalidManifestMsg opts = e := by simpa using he
      exact ⟨h2.symm, h2 ▸ invalidManifestMsg_names_field opts⟩

/-- Jackett credentials supplied by the user. -/
def exJackettUser : JackettOptions :=
  { jackettUrl := some "https://jackett.user.example/"
    jackettApiKey := some "userkey" }

/-- A Jackett environment with built-in defaults configured. -/
def exJackettEnv : JackettEnv :=
  { BUILTIN_JACKETT_URL := some "https://jackett.builtin.example"
    BUILTIN_JACKETT_API_KEY := some "builtinkey" }

/-- C8.  `JackettPreset.generateManifestUrl` never consults the
environment when either user option is truthy (the result is the same
under any two environments); explicit user credentials are used verbatim;
when neither user option is supplied and an environment default is
missing, or when only one user credential is supplied (so the other stays
absent, environment defaults not consulted), it fails with the
configuration error.  Closed conjuncts: a lone user URL fails even though
the environment holds both defaults, and with no user options the
environment credentials are used. -/
theorem c8_jackett_env_defaults_only_as_fallback :
    (∀ (env env2 : JackettEnv) (opts : JackettOptions),
      ((jsTruthy opts.jackettUrl || jsTruthy opts.jackettApiKey) = true →
        JackettPreset.generateManifestUrl env opts =
          JackettPreset.generateManifestUrl env2 opts) ∧
      (∀ u k, opts.jackettUrl = some u → u ≠ "" →
        opts.jackettApiKey = some k → k ≠ "" →
        JackettPreset.generateManifestUrl env opts =
          .ok { url := stripTrailingSlash u ++ "/api/v2.0/indexers/all/results/torznab"
                apiPath := "/api", apiKey := k, forceQuerySearch := true }) ∧
      ((jsTruthy opts.jackettUrl || jsTruthy opts.jackettApiKey) = false →
        (jsTruthy env.BUILTIN_JACKETT_URL && jsTruthy env.BUILTIN_JACKETT_API_KEY) = false →
        JackettPreset.generateManifestUrl env opts =
          .error "Jackett URL and API Key are required") ∧
      ((jsTruthy opts.jackettUrl || jsTruthy opts.jackettApiKey) = true →
        (jsTruthy opts.jackettUrl && jsTruthy opts.jackettApiKey) = false →
        JackettPreset.generateManifestUrl env opts =
          .error "Jackett URL and API Key are required")) ∧
    JackettPreset.generateManifestUrl exJackettEnv
        { jackettUrl := some "https://jackett.user.example/" } =
      .error "Jackett URL and API Key are required" ∧
    JackettPreset.generateManifestUrl exJackettEnv {} =
      .ok { url := "https://jackett.builtin.example/api/v2.0/indexers/all/results/torznab"
            apiPath := "/api", apiKey := "builtinkey", forceQuerySearch := true } ∧
    JackettPreset.generateManifestUrl exJackettEnv exJackettUser =
      .ok { url := "https://jackett.user.example/api/v2.0/indexers/all/results/torznab"
            apiPath := "/api", apiKey := "userkey", forceQuerySearch := true } ∧
    JackettPreset.generateManifestUrl {} {} =
      .error "Jackett URL and API Key are required" := by
  refine ⟨?_, by decide, by decide, by decide, by decide⟩
  intro env env2 opts
  refine ⟨?_, ?_, ?_, ?_⟩
  · intro huser
    unfold JackettPreset.generateManifestUrl
    simp only [huser, if_true]
  · intro u k hu hu2 hk hk2
    unfold JackettPreset.generateManifestUrl
    simp [hu, hk, jsTruthy, hu2, hk2]
  · intro huser henv
    unfold JackettPreset.generateManifestUrl
    simp only [huser, Bool.false_eq_true, if_false]
    rcases Bool.and_eq_false_iff.mp henv with h | h <;> simp [h]
  · intro huser hboth
    unfold JackettPreset.generateManifestUrl
    simp only [huser, if_true]
    rcases Bool.and_eq_false_iff.mp hboth with h | h <;> simp [h]

/-- C10.  In `CustomPreset.generateAddon`, falsy explicit values collapse
to the defaults: a user-supplied timeout of `0` yields the family default
timeout and an empty-string name yields the default name `"Custom"` (both
via `||` coercion), while the `libraryAddon` boolean goes through `??` and
so preserves an explicit `false`.  Non-falsy explicit values are kept.
The closed conjuncts evaluate one addon with all three settings at once. -/
theorem c10_custom_falsy_coercion :
    (∀ (env : Env) (opts : CustomOptions), opts.timeout = some 0 →
      (CustomPreset.generateAddon env opts).timeout = (CustomPreset.METADATA env).TIMEOUT) ∧
    (∀ (env : Env) (opts : CustomOptions), opts.name = some "" →
      (CustomPreset.generateAddon env opts).name = "Custom") ∧
    (∀ (env : Env) (opts : CustomOptions) (b : Bool), opts.libraryAddon = some b →
      (CustomPreset.generateAddon env opts).library = b) ∧
    (∀ (env : Env) (opts : CustomOptions) (t : Int), opts.timeout = some t → t ≠ 0 →
      (CustomPreset.generateAddon env opts).timeout = t) ∧
    (∀ (env : Env) (opts : CustomOptions) (s : String), opts.name = some s → s ≠ "" →
      (CustomPreset.generateAddon env opts).name = s) ∧
    ((CustomPreset.generateAddon env0
        { timeout := some 0, name := some "", libraryAddon := some false }).timeout =
          env0.DEFAULT_TIMEOUT ∧
      (CustomPreset.generateAddon env0
        { timeout := some 0, name := some "", libraryAddon := some false }).name =
          "Custom" ∧
      (CustomPreset.generateAddon env0
        { timeout := some 0, name := some "", libraryAddon := some false }).library =
          false) := by
  refine ⟨?_, ?_, ?_, ?_, ?_, by decide, by decide, by decide⟩
  · intro env opts h
    show (match opts.timeout with
          | some t => if t ≠ 0 then t else (CustomPreset.METADATA env).TIMEOUT
          | none => (CustomPreset.METADATA env).TIMEOUT) = _
    simp [h]
  · intro env opts h
    show (match opts.name with
          | some s => if s ≠ "" then s else (CustomPreset.METADATA env).NAME
          | none => (CustomPreset.METADATA env).NAME) = _
    simp [h, CustomPreset.METADATA]
  · intro env opts b h
    show opts.libraryAddon.getD false = b
    simp [h]
  · intro env opts t h ht
    show (match opts.timeout with
          | some t => if t ≠ 0 then t else (CustomPreset.METADATA env).TIMEOUT
          | none => (CustomPreset.METADATA env).TIMEOUT) = _
    simp [h, ht]
  · intro env opts s h hs
    show (match opts.name with
          | some s => if s ≠ "" then s else (CustomPreset.METADATA env).NAME
          | none => (CustomPreset.METADATA env).NAME) = _
    simp [h, hs]

namespace IdParser

/-- The scheme loop is the canonical first-match-wins scan. -/
theorem parseGo_eq_findSome (s m : String) (L : List IdParserDefinition) :
    parseGo s m L = L.findSome? fun p => (p.run s).map (buildParsed p s m) := by
  induction L with
  | nil => rfl
  | cons p rest ih =>
    rw [List.findSome?_cons]
    cases hp : p.run s <;> simp [parseGo, hp, ih]

/-- C6.  `IdParser.parse` tries the twelve scheme definitions in their
declaration order (imdb, mal, thetvdb, themoviedb, kitsu, anilist, anidb,
animePlanet, animecountdown, anisearch, notifyMoe, simkl), returning the
`ParsedId` built (with season/episode set exactly when captured, as
`buildParsed` does) from the first definition whose regex matches — the
library first-match scan `findSome?` — and `none` exactly when no
definition matches.  Purity is inherent: `parse` is a Lean function of its
two arguments. -/
theorem c6_parse_first_match_in_declaration_order :
    ID_PARSERS.map IdParserDefinition.type =
      [.imdbId, .malId, .thetvdbId, .themoviedbId, .kitsuId, .anilistId,
       .anidbId, .animePlanetId, .animecountdownId, .anisearchId,
       .notifyMoeId, .simklId] ∧
    (∀ s m : String,
      parse s m = ID_PARSERS.findSome? fun p => (p.run s).map (buildParsed p s m)) ∧
    (∀ s m : String,
      parse s m = none ↔ ∀ p ∈ ID_PARSERS, p.run s = none) := by
  refine ⟨by decide, fun s m => parseGo_eq_findSome s m ID_PARSERS, fun s m => ?_⟩
  rw [show parse s m = parseGo s m ID_PARSERS from rfl, parseGo_eq_findSome,
    List.findSome?_eq_none_iff]
  constructor
  · intro h p hp
    exact Option.map_eq_none'.mp (h p hp)
  · intro h p hp
    exact Option.map_eq_none'.mpr (h p hp)

end IdParser

/-! ## Decimal rendering of JS numbers -/
theorem digitChar_isDigit {d : Nat} (h : d < 10) : (Nat.digitChar d).isDigit = true := by
  interval_cases d <;> decide

theorem digitChar_toNat {d : Nat} (h : d < 10) : (Nat.digitChar d).toNat = d + 48 := by
  interval_cases d <;> decide

theorem natDigitsRev_ne_nil (n : Nat) : natDigitsRev n ≠ [] := by
  rw [natDigitsRev, natDigitsRevFuel]; split <;> simp

theorem natDigitsRevFuel_digits :
    ∀ (fuel n : Nat), n < fuel → ∀ c ∈ natDigitsRevFuel fuel n, c.isDigit = true := by
  intro fuel
  induction fuel with
  | zero => intro n h; omega
  | succ f ih =>
    intro n h c hc
    simp only [natDigitsRevFuel] at hc
    split at hc
    · rename_i h10
      simp only [List.mem_singleton] at hc
      subst hc
      exact digitChar_isDigit h10
    · rename_i h10
      rcases List.mem_cons.mp hc with rfl | hc
      · exact digitChar_isDigit (Nat.mod_lt _ (by omega))
      · have hdiv : n / 10 < f := by
          have hlt : n / 10 < n := Nat.div_lt_self (by omega) (by omega)
          omega
        exact ih (n / 10) hdiv c hc

theorem natDigitsRev_digits (n : Nat) : ∀ c ∈ natDigitsRev n, c.isDigit = true :=
  natDigitsRevFuel_digits (n + 1) n (by omega)

theorem digitsToNat_append_singleton (l : List Char) (c : Char) :
    digitsToNat (l ++ [c]) = 10 * digitsToNat l + (c.toNat - 48) := by
  simp [digitsToNat, List.foldl_append]

theorem digitsToNat_natDigitsRevFuel :
    ∀ (fuel n : Nat), n < fuel → digitsToNat (natDigitsRevFuel fuel n).reverse = n := by
  intro fuel
  induction fuel with
  | zero => intro n h; omega
  | succ f ih =>
    intro n h
    rw [natDigitsRevFuel]
    split
    · rename_i h10
      simp [digitsToNat, digitChar_toNat h10]
    · rename_i h10
      have hdiv : n / 10 < f := by
        have hlt : n / 10 < n := Nat.div_lt_self (by omega) (by omega)
        omega
      rw [List.reverse_cons, digitsToNat_append_singleton, ih (n / 10) hdiv,
        digitChar_toNat (Nat.mod_lt _ (by omega))]
      omega

theorem digitsToNat_natDigitsRev (n : Nat) :
    digitsToNat (natDigitsRev n).reverse = n :=
  digitsToNat_natDigitsRevFuel (n + 1) n (by omega)

theorem natToDecimal_toList_digits (n : Nat) :
    ∀ c ∈ (natToDecimal n).toList, c.isDigit = true := by
  intro c hc
  exact natDigitsRev_digits n c (List.mem_reverse.mp hc)

theorem natToDecimal_toList_ne_nil (n : Nat) : (natToDecimal n).toList ≠ [] := by
  show (natDigitsRev n).reverse ≠ []
  simp [natDigitsRev_ne_nil n]

theorem jsNumberOfDigits_natToDecimal (n : Nat) :
    jsNumberOfDigits (natToDecimal n) = n := by
  show digitsToNat (natDigitsRev n).reverse = n
  exact digitsToNat_natDigitsRev n

/-! ## Digit-run parsing lemmas -/
theorem takeWhile_digits_append {ds rest : List Char}
    (hall : ∀ c ∈ ds, c.isDigit = true)
    (hrest : ∀ c, rest.head? = some c → c.isDigit = false) :
    (ds ++ rest).takeWhile Char.isDigit = ds ∧
    (ds ++ rest).dropWhile Char.isDigit = rest := by
  induction ds with
  | nil =>
    simp only [List.nil_append]
    cases rest with
    | nil => simp
    | cons c cs =>
      have hc := hrest c rfl
      simp [List.takeWhile_cons, List.dropWhile_cons, hc]
  | cons d ds ih =>
    have hd : d.isDigit = true := hall d (by simp)
    have ih2 := ih fun c hc => hall c (by simp [hc])
    simp only [List.cons_append, List.takeWhile_cons_of_pos hd,
      List.dropWhile_cons_of_pos hd, ih2.1, ih2.2, and_self]

theorem takeDigits1_append {ds rest : List Char} (hne : ds ≠ [])
    (hall : ∀ c ∈ ds, c.isDigit = true)
    (hrest : ∀ c, rest.head? = some c → c.isDigit = false) :
    takeDigits1 (ds ++ rest) = some (ds, rest) := by
  have h := takeWhile_digits_append hall hrest
  simp [takeDigits1, h.1, h.2, hne]

theorem takeDigits1_some {cs ds rest : List Char}
    (h : takeDigits1 cs = some (ds, rest)) :
    ds ≠ [] ∧ (∀ c ∈ ds, c.isDigit = true) ∧ cs = ds ++ rest := by
  simp only [takeDigits1] at h
  by_cases he : (cs.takeWhile Char.isDigit).isEmpty = true
  · simp [he] at h
  · simp only [he, Bool.false_eq_true, if_false, Option.some_inj, Prod.mk.injEq] at h
    obtain ⟨h1, h2⟩ := h
    subst h1
    subst h2
    refine ⟨by simpa [List.isEmpty_iff] using he,
      fun c hc => List.mem_takeWhile_imp hc,
      (List.takeWhile_append_dropWhile _ _).symm⟩

theorem skipOptSep_digit {c : Char} (cs : List Char) (h : c.isDigit = true) :
    skipOptSep (c :: cs) = c :: cs := by
  simp only [skipOptSep]
  rw [if_neg]
  rintro (rfl | rfl) <;> exact absurd h (by decide)

theorem skipOptSep_colon (cs : List Char) : skipOptSep (':' :: cs) = cs := by
  simp [skipOptSep]

theorem colon_head_not_digit :
    ∀ c : Char, (':' :: ([] : List Char)).head? = some c → c.isDigit = false := by
  intro c hc
  simp at hc
  subst hc
  decide

theorem runSeasonEpisodeTail_eval {ids ses eps : List Char}
    (hid : ids ≠ []) (hid2 : ∀ c ∈ ids, c.isDigit = true)
    (hse : ses ≠ []) (hse2 : ∀ c ∈ ses, c.isDigit = true)
    (hep : eps ≠ []) (hep2 : ∀ c ∈ eps, c.isDigit = true)
    {X : List Char} (hX : skipOptSep X = ids ++ ':' :: (ses ++ ':' :: eps)) :
    runSeasonEpisodeTail X =
      some (String.mk ids, some (String.mk ses), some (String.mk eps)) := by
  have h1 : takeDigits1 (ids ++ ':' :: (ses ++ ':' :: eps)) =
      some (ids, ':' :: (ses ++ ':' :: eps)) := by
    refine takeDigits1_append hid hid2 ?_
    intro c hc
    simp only [List.head?_cons, Option.some_inj] at hc
    subst hc; decide
  have h2 : takeDigits1 (ses ++ ':' :: eps) = some (ses, ':' :: eps) := by
    refine takeDigits1_append hse hse2 ?_
    intro c hc
    simp only [List.head?_cons, Option.some_inj] at hc
    subst hc; decide
  have h3 : takeDigits1 (eps ++ []) = some (eps, []) := by
    refine takeDigits1_append hep hep2 ?_
    intro c hc
    simp at hc
  rw [List.append_nil] at h3
  simp only [runSeasonEpisodeTail, hX, h1, h2, h3, List.isEmpty_nil, if_true]

theorem runEpisodeTail_eval {ids eps : List Char}
    (hid : ids ≠ []) (hid2 : ∀ c ∈ ids, c.isDigit = true)
    (hep : eps ≠ []) (hep2 : ∀ c ∈ eps, c.isDigit = true)
    {X : List Char} (hX : skipOptSep X = ids ++ ':' :: eps) :
    runEpisodeTail X = some (String.mk ids, none, some (String.mk eps)) := by
  have h1 : takeDigits1 (ids ++ ':' :: eps) = some (ids, ':' :: eps) := by
    refine takeDigits1_append hid hid2 ?_
    intro c hc
    simp only [List.head?_cons, Option.some_inj] at hc
    subst hc; decide
  have h3 : takeDigits1 (eps ++ []) = some (eps, []) := by
    refine takeDigits1_append hep hep2 ?_
    intro c hc
    simp at hc
  rw [List.append_nil] at h3
  simp only [runEpisodeTail, hX, h1, h3, List.isEmpty_nil, if_true]

/-! ## Capture shapes of the scheme regexes -/
/-- A non-empty all-digit string. -/
def DigitStr (s : String) : Prop :=
  s.toList ≠ [] ∧ ∀ c ∈ s.toList, c.isDigit = true

theorem runSeasonEpisodeTail_shape {cs : List Char} {id : String} {se ep : Option String}
    (h : runSeasonEpisodeTail cs = some (id, se, ep)) :
    DigitStr id ∧
    ((se = none ∧ ep = none) ∨
      (∃ s e : String, se = some s ∧ ep = some e ∧ DigitStr s ∧ DigitStr e)) := by
  simp only [runSeasonEpisodeTail] at h
  split at h
  · exact absurd h (by simp)
  · rename_i ids rest h1
    obtain ⟨hne, hall, -⟩ := takeDigits1_some h1
    split at h
    · simp only [Option.some_inj, Prod.mk.injEq] at h
      obtain ⟨rfl, rfl, rfl⟩ := h
      exact ⟨⟨hne, hall⟩, Or.inl ⟨rfl, rfl⟩⟩
    · split at h
      · exact absurd h (by simp)
      · rename_i ses r2 h2
        obtain ⟨hne2, hall2, -⟩ := takeDigits1_some h2
        split at h
        · split at h
          · exact absurd h (by simp)
          · rename_i eps r4 h3
            obtain ⟨hne3, hall3, -⟩ := takeDigits1_some h3
            split at h
            · simp only [Option.some_inj, Prod.mk.injEq] at h
              obtain ⟨rfl, rfl, rfl⟩ := h
              exact ⟨⟨hne, hall⟩,
                Or.inr ⟨_, _, rfl, rfl, ⟨hne2, hall2⟩, ⟨hne3, hall3⟩⟩⟩
            · exact absurd h (by simp)
        · exact absurd h (by simp)
    · exact absurd h (by simp)

theorem runEpisodeTail_shape {cs : List Char} {id : String} {se ep : Option String}
    (h : runEpisodeTail cs = some (id, se, ep)) :
    DigitStr id ∧ se = none ∧
    (ep = none ∨ ∃ e : String, ep = some e ∧ DigitStr e) := by
  simp only [runEpisodeTail] at h
  split at h
  · exact absurd h (by simp)
  · rename_i ids rest h1
    obtain ⟨hne, hall, -⟩ := takeDigits1_some h1
    split at h
    · simp only [Option.some_inj, Prod.mk.injEq] at h
      obtain ⟨rfl, rfl, rfl⟩ := h
      exact ⟨⟨hne, hall⟩, rfl, Or.inl rfl⟩
    · split at h
      · exact absurd h (by simp)
      · rename_i eps r2 h2
        obtain ⟨hne2, hall2, -⟩ := takeDigits1_some h2
        split at h
        · simp only [Option.some_inj, Prod.mk.injEq] at h
          obtain ⟨rfl, rfl, rfl⟩ := h
          exact ⟨⟨hne, hall⟩, rfl, Or.inr ⟨_, rfl, ⟨hne2, hall2⟩⟩⟩
        · exact absurd h (by simp)
    · exact absurd h (by simp)

theorem runIdOnlyTail_shape {cs : List Char} {id : String} {se ep : Option String}
    (h : runIdOnlyTail cs = some (id, se, ep)) : se = none ∧ ep = none := by
  simp only [runIdOnlyTail] at h
  split at h
  · exact absurd h (by simp)
  · split at h
    · simp only [Option.some_inj, Prod.mk.injEq] at h
      obtain ⟨-, rfl, rfl⟩ := h
      exact ⟨rfl, rfl⟩
    · exact absurd h (by simp)

theorem runAlnumTail_shape {cs : List Char} {id : String} {se ep : Option String}
    (h : runAlnumTail cs = some (id, se, ep)) : se = none ∧ ep = none := by
  simp only [runAlnumTail] at h
  split at h
  · exact absurd h (by simp)
  · split at h
    · simp only [Option.some_inj, Prod.mk.injEq] at h
      obtain ⟨-, rfl, rfl⟩ := h
      exact ⟨rfl, rfl⟩
    · exact absurd h (by simp)

theorem tryPrefixes_shape
    {tail : List Char → Option (String × Option String × Option String)}
    {ps : List String} {s : List Char} {g : String × Option String × Option String}
    (h : tryPrefixes tail ps s = some g) : ∃ cs, tail cs = some g := by
  induction ps with
  | nil => simp [tryPrefixes] at h
  | cons p rest ih =>
    simp only [tryPrefixes] at h
    split at h
    · rename_i after hstrip
      split at h
      · rename_i g2 hg2
        exact ⟨after, hg2.trans (congrArg some (Option.some_inj.mp h))⟩
      · exact ih h
    · exact ih h

/-! ## Round-trip behaviour of the identifier resolver -/

namespace IdParser

theorem parseGo_skip {s m : String} {d : IdParserDefinition}
    {rest : List IdParserDefinition} (h : d.run s = none) :
    parseGo s m (d :: rest) = parseGo s m rest := by
  simp [parseGo, h]

theorem parseGo_hit {s m : String} {d : IdParserDefinition}
    {rest : List IdParserDefinition} {g : String × Option String × Option String}
    (h : d.run s = some g) :
    parseGo s m (d :: rest) = some (buildParsed d s m g) := by
  simp [parseGo, h]

theorem toList_append (s t : String) : (s ++ t).toList = s.toList ++ t.toList :=
  String.data_append s t

/-- Round trip for an imdb identifier carrying season and episode. -/
theorem parse_imdb_gen {id se ep : String} (m : String)
    (hid : DigitStr id) (hse : DigitStr se) (hep : DigitStr ep) :
    ∃ q : ParsedId,
      parse ("tt" ++ id ++ ":" ++ se ++ ":" ++ ep) m = some q ∧
      q.type = .imdbId ∧ q.value = .str ("tt" ++ id) := by
  have hlist : ("tt" ++ id ++ ":" ++ se ++ ":" ++ ep).toList =
      't' :: 't' :: (id.toList ++ ':' :: (se.toList ++ ':' :: ep.toList)) := by
    simp [toList_append]
  obtain ⟨c, cs, hcons⟩ := List.exists_cons_of_ne_nil hid.1
  have hsep : skipOptSep (id.toList ++ ':' :: (se.toList ++ ':' :: ep.toList)) =
      id.toList ++ ':' :: (se.toList ++ ':' :: ep.toList) := by
    rw [hcons, List.cons_append]
    exact skipOptSep_digit _ (hid.2 c (by rw [hcons]; simp))
  have heval := runSeasonEpisodeTail_eval hid.1 hid.2 hse.1 hse.2 hep.1 hep.2 hsep
  simp only [String.toList] at heval
  have hrun : imdbDef.run ("tt" ++ id ++ ":" ++ se ++ ":" ++ ep) =
      some (String.mk id.toList, some (String.mk se.toList),
        some (String.mk ep.toList)) := by
    show tryPrefixes runSeasonEpisodeTail ["tt", "imdb"]
        ("tt" ++ id ++ ":" ++ se ++ ":" ++ ep).toList = _
    rw [hlist]
    simp [tryPrefixes, stripPrefixExact, heval]
  have hparse : parse ("tt" ++ id ++ ":" ++ se ++ ":" ++ ep) m =
      some (buildParsed imdbDef ("tt" ++ id ++ ":" ++ se ++ ":" ++ ep) m
        (String.mk id.toList, some (String.mk se.toList),
          some (String.mk ep.toList))) := by
    show parseGo _ m ID_PARSERS = _
    simp only [ID_PARSERS]
    rw [parseGo_hit hrun]
  exact ⟨_, hparse, rfl, rfl⟩


/-- Round trip for a mal identifier carrying an episode. -/
theorem parse_mal_gen {n : Nat} {ep : String} (m : String) (hep : DigitStr ep) :
    ∃ q : ParsedId,
      parse ("mal:" ++ natToDecimal n ++ ":" ++ ep) m = some q ∧
      q.type = .malId ∧ q.value = .num n := by
  have hlist : ("mal:" ++ natToDecimal n ++ ":" ++ ep).toList =
      'm' :: 'a' :: 'l' :: ':' :: ((natToDecimal n).toList ++ ':' :: ep.toList) := by
    simp [toList_append]
  have hskip0 : imdbDef.run ("mal:" ++ natToDecimal n ++ ":" ++ ep) = none := by
    show tryPrefixes runSeasonEpisodeTail ["tt", "imdb"]
        ("mal:" ++ natToDecimal n ++ ":" ++ ep).toList = none
    rw [hlist]
    simp [tryPrefixes, stripPrefixExact]
  have heval := runEpisodeTail_eval (natToDecimal_toList_ne_nil n)
    (natToDecimal_toList_digits n) hep.1 hep.2
    (skipOptSep_colon ((natToDecimal n).toList ++ ':' :: ep.toList))
  simp only [String.toList] at heval
  have hrun : malDef.run ("mal:" ++ natToDecimal n ++ ":" ++ ep) =
      some (String.mk (natToDecimal n).toList, none, some (String.mk ep.toList)) := by
    show tryPrefixes runEpisodeTail ["mal"]
        ("mal:" ++ natToDecimal n ++ ":" ++ ep).toList = some _
    rw [hlist]
    simp [tryPrefixes, stripPrefixExact, heval]
  have hparse : parse ("mal:" ++ natToDecimal n ++ ":" ++ ep) m =
      some (buildParsed malDef ("mal:" ++ natToDecimal n ++ ":" ++ ep) m
        (String.mk (natToDecimal n).toList, none, some (String.mk ep.toList))) := by
    show parseGo _ m ID_PARSERS = _
    simp only [ID_PARSERS]
    rw [parseGo_skip hskip0, parseGo_hit hrun]
  refine ⟨_, hparse, rfl, ?_⟩
  show IdValue.num (jsNumberOfDigits (natToDecimal n)) = IdValue.num n
  rw [jsNumberOfDigits_natToDecimal]

/-- Round trip for a tvdb identifier carrying season and episode. -/
theorem parse_tvdb_gen {n : Nat} {se ep : String} (m : String)
    (hse : DigitStr se) (hep : DigitStr ep) :
    ∃ q : ParsedId,
      parse ("tvdb:" ++ natToDecimal n ++ ":" ++ se ++ ":" ++ ep) m = some q ∧
      q.type = .thetvdbId ∧ q.value = .num n := by
  have hlist : ("tvdb:" ++ natToDecimal n ++ ":" ++ se ++ ":" ++ ep).toList =
      't' :: 'v' :: 'd' :: 'b' :: ':' :: ((natToDecimal n).toList ++ ':' :: (se.toList ++ ':' :: ep.toList)) := by
    simp [toList_append]
  have hskip0 : imdbDef.run ("tvdb:" ++ natToDecimal n ++ ":" ++ se ++ ":" ++ ep) = none := by
    show tryPrefixes runSeasonEpisodeTail ["tt", "imdb"]
        ("tvdb:" ++ natToDecimal n ++ ":" ++ se ++ ":" ++ ep).toList = none
    rw [hlist]
    simp [tryPrefixes, stripPrefixExact]
  have hskip1 : malDef.run ("tvdb:" ++ natToDecimal n ++ ":" ++ se ++ ":" ++ ep) = none := by
    show tryPrefixes runEpisodeTail ["mal"]
        ("tvdb:" ++ natToDecimal n ++ ":" ++ se ++ ":" ++ ep).toList = none
    rw [hlist]
    simp [tryPrefixes, stripPrefixExact]
  have heval := runSeasonEpisodeTail_eval (natToDecimal_toList_ne_nil n)
    (natToDecimal_toList_digits n) hse.1 hse.2 hep.1 hep.2
    (skipOptSep_colon ((natToDecimal n).toList ++ ':' :: (se.toList ++ ':' :: ep.toList)))
  simp only [String.toList] at heval
  have hrun : thetvdbDef.run ("tvdb:" ++ natToDecimal n ++ ":" ++ se ++ ":" ++ ep) =
      some (String.mk (natToDecimal n).toList, some (String.mk se.toList), some (String.mk ep.toList)) := by
    show tryPrefixes runSeasonEpisodeTail ["tvdb"]
        ("tvdb:" ++ natToDecimal n ++ ":" ++ se ++ ":" ++ ep).toList = some _
    rw [hlist]
    simp [tryPrefixes, stripPrefixExact, heval]
  have hparse : parse ("tvdb:" ++ natToDecimal n ++ ":" ++ se ++ ":" ++ ep) m =
      some (buildParsed thetvdbDef ("tvdb:" ++ natToDecimal n ++ ":" ++ se ++ ":" ++ ep) m
        (String.mk (natToDecimal n).toList, some (String.mk se.toList), some (String.mk ep.toList))) := by
    show parseGo _ m ID_PARSERS = _
    simp only [ID_PARSERS]
    rw [parseGo_skip hskip0, parseGo_skip hskip1, parseGo_hit hrun]
  refine ⟨_, hparse, rfl, ?_⟩
  show IdValue.num (jsNumberOfDigits (natToDecimal n)) = IdValue.num n
  rw [jsNumberOfDigits_natToDecimal]

/-- Round trip for a tmdb identifier carrying season and episode. -/
theorem parse_tmdb_gen {n : Nat} {se ep : String} (m : String)
    (hse : DigitStr se) (hep : DigitStr ep) :
    ∃ q : ParsedId,
      parse ("tmdb:" ++ natToDecimal n ++ ":" ++ se ++ ":" ++ ep) m = some q ∧
      q.type = .themoviedbId ∧ q.value = .num n := by
  have hlist : ("tmdb:" ++ natToDecimal n ++ ":" ++ se ++ ":" ++ ep).toList =
      't' :: 'm' :: 'd' :: 'b' :: ':' :: ((natToDecimal n).toList ++ ':' :: (se.toList ++ ':' :: ep.toList)) := by
    simp [toList_append]
  have hskip0 : imdbDef.run ("tmdb:" ++ natToDecimal n ++ ":" ++ se ++ ":" ++ ep) = none := by
    show tryPrefixes runSeasonEpisodeTail ["tt", "imdb"]
        ("tmdb:" ++ natToDecimal n ++ ":" ++ se ++ ":" ++ ep).toList = none
    rw [hlist]
    simp [tryPrefixes, stripPrefixExact]
  have hskip1 : malDef.run ("tmdb:" ++ natToDecimal n ++ ":" ++ se ++ ":" ++ ep) = none := by
    show tryPrefixes runEpisodeTail ["mal"]
        ("tmdb:" ++ natToDecimal n ++ ":" ++ se ++ ":" ++ ep).toList = none
    rw [hlist]
    simp [tryPrefixes, stripPrefixExact]
  have hskip2 : thetvdbDef.run ("tmdb:" ++ natToDecimal n ++ ":" ++ se ++ ":" ++ ep) = none := by
    show tryPrefixes runSeasonEpisodeTail ["tvdb"]
        ("tmdb:" ++ natToDecimal n ++ ":" ++ se ++ ":" ++ ep).toList = none
    rw [hlist]
    simp [tryPrefixes, stripPrefixExact]
  have heval := runSeasonEpisodeTail_eval (natToDecimal_toList_ne_nil n)
    (natToDecimal_toList_digits n) hse.1 hse.2 hep.1 hep.2
    (skipOptSep_colon ((natToDecimal n).toList ++ ':' :: (se.toList ++ ':' :: ep.toList)))
  simp only [String.toList] at heval
  have hrun : themoviedbDef.run ("tmdb:" ++ natToDecimal n ++ ":" ++ se ++ ":" ++ ep) =
      some (String.mk (natToDecimal n).toList, some (String.mk se.toList), some (String.mk ep.toList)) := by
    show tryPrefixes runSeasonEpisodeTail ["tmdb"]
        ("tmdb:" ++ natToDecimal n ++ ":" ++ se ++ ":" ++ ep).toList = some _
    rw [hlist]
    simp [tryPrefixes, stripPrefixExact, heval]
  have hparse : parse ("tmdb:" ++ natToDecimal n ++ ":" ++ se ++ ":" ++ ep) m =
      some (buildParsed themoviedbDef ("tmdb:" ++ natToDecimal n ++ ":" ++ se ++ ":" ++ ep) m
        (String.mk (natToDecimal n).toList, some (String.mk se.toList), some (String.mk ep.toList))) := by
    show parseGo _ m ID_PARSERS = _
    simp only [ID_PARSERS]
    rw [parseGo_skip hskip0, parseGo_skip hskip1, parseGo_skip hskip2, parseGo_hit hrun]
  refine ⟨_, hparse, rfl, ?_⟩
  show IdValue.num (jsNumberOfDigits (natToDecimal n)) = IdValue.num n
  rw [jsNumberOfDigits_natToDecimal]

/-- Round trip for a kitsu identifier carrying an episode. -/
theorem parse_kitsu_gen {n : Nat} {ep : String} (m : String) (hep : DigitStr ep) :
    ∃ q : ParsedId,
      parse ("kitsu:" ++ natToDecimal n ++ ":" ++ ep) m = some q ∧
      q.type = .kitsuId ∧ q.value = .num n := by
  have hlist : ("kitsu:" ++ natToDecimal n ++ ":" ++ ep).toList =
      'k' :: 'i' :: 't' :: 's' :: 'u' :: ':' :: ((natToDecimal n).toList ++ ':' :: ep.toList) := by
    simp [toList_append]
  have hskip0 : imdbDef.run ("kitsu:" ++ natToDecimal n ++ ":" ++ ep) = none := by
    show tryPrefixes runSeasonEpisodeTail ["tt", "imdb"]
        ("kitsu:" ++ natToDecimal n ++ ":" ++ ep).toList = none
    rw [hlist]
    simp [tryPrefixes, stripPrefixExact]
  have hskip1 : malDef.run ("kitsu:" ++ natToDecimal n ++ ":" ++ ep) = none := by
    show tryPrefixes runEpisodeTail ["mal"]
        ("kitsu:" ++ natToDecimal n ++ ":" ++ ep).toList = none
    rw [hlist]
    simp [tryPrefixes, stripPrefixExact]
  have hskip2 : thetvdbDef.run ("kitsu:" ++ natToDecimal n ++ ":" ++ ep) = none := by
    show tryPrefixes runSeasonEpisodeTail ["tvdb"]
        ("kitsu:" ++ natToDecimal n ++ ":" ++ ep).toList = none
    rw [hlist]
    simp [tryPrefixes, stripPrefixExact]
  have hskip3 : themoviedbDef.run ("kitsu:" ++ natToDecimal n ++ ":" ++ ep) = none := by
    show tryPrefixes runSeasonEpisodeTail ["tmdb"]
        ("kitsu:" ++ natToDecimal n ++ ":" ++ ep).toList = none
    rw [hlist]
    simp [tryPrefixes, stripPrefixExact]
  have heval := runEpisodeTail_eval (natToDecimal_toList_ne_nil n)
    (natToDecimal_toList_digits n) hep.1 hep.2
    (skipOptSep_colon ((natToDecimal n).toList ++ ':' :: ep.toList))
  simp only [String.toList] at heval
  have hrun : kitsuDef.run ("kitsu:" ++ natToDecimal n ++ ":" ++ ep) =
      some (String.mk (natToDecimal n).toList, none, some (String.mk ep.toList)) := by
    show tryPrefixes runEpisodeTail ["kitsu"]
        ("kitsu:" ++ natToDecimal n ++ ":" ++ ep).toList = some _
    rw [hlist]
    simp [tryPrefixes, stripPrefixExact, heval]
  have hparse : parse ("kitsu:" ++ natToDecimal n ++ ":" ++ ep) m =
      some (buildParsed kitsuDef ("kitsu:" ++ natToDecimal n ++ ":" ++ ep) m
        (String.mk (natToDecimal n).toList, none, some (String.mk ep.toList))) := by
    show parseGo _ m ID_PARSERS = _
    simp only [ID_PARSERS]
    rw [parseGo_skip hskip0, parseGo_skip hskip1, parseGo_skip hskip2, parseGo_skip hskip3, parseGo_hit hrun]
  refine ⟨_, hparse, rfl, ?_⟩
  show IdValue.num (jsNumberOfDigits (natToDecimal n)) = IdValue.num n
  rw [jsNumberOfDigits_natToDecimal]

/-- Round trip for a anilist identifier carrying an episode. -/
theorem parse_anilist_gen {n : Nat} {ep : String} (m : String) (hep : DigitStr ep) :
    ∃ q : ParsedId,
      parse ("anilist:" ++ natToDecimal n ++ ":" ++ ep) m = some q ∧
      q.type = .anilistId ∧ q.value = .num n := by
  have hlist : ("anilist:" ++ natToDecimal n ++ ":" ++ ep).toList =
      'a' :: 'n' :: 'i' :: 'l' :: 'i' :: 's' :: 't' :: ':' :: ((natToDecimal n).toList ++ ':' :: ep.toList) := by
    simp [toList_append]
  have hskip0 : imdbDef.run ("anilist:" ++ natToDecimal n ++ ":" ++ ep) = none := by
    show tryPrefixes runSeasonEpisodeTail ["tt", "imdb"]
        ("anilist:" ++ natToDecimal n ++ ":" ++ ep).toList = none
    rw [hlist]
    simp [tryPrefixes, stripPrefixExact]
  have hskip1 : malDef.run ("anilist:" ++ natToDecimal n ++ ":" ++ ep) = none := by
    show tryPrefixes runEpisodeTail ["mal"]
        ("anilist:" ++ natToDecimal n ++ ":" ++ ep).toList = none
    rw [hlist]
    simp [tryPrefixes, stripPrefixExact]
  have hskip2 : thetvdbDef.run ("anilist:" ++ natToDecimal n ++ ":" ++ ep) = none := by
    show tryPrefixes runSeasonEpisodeTail ["tvdb"]
        ("anilist:" ++ natToDecimal n ++ ":" ++ ep).toList = none
    rw [hlist]
    simp [tryPrefixes, stripPrefixExact]
  have hskip3 : themoviedbDef.run ("anilist:" ++ natToDecimal n ++ ":" ++ ep) = none := by
    show tryPrefixes runSeasonEpisodeTail ["tmdb"]
        ("anilist:" ++ natToDecimal n ++ ":" ++ ep).toList = none
    rw [hlist]
    simp [tryPrefixes, stripPrefixExact]
  have hskip4 : kitsuDef.run ("anilist:" ++ natToDecimal n ++ ":" ++ ep) = none := by
    show tryPrefixes runEpisodeTail ["kitsu"]
        ("anilist:" ++ natToDecimal n ++ ":" ++ ep).toList = none
    rw [hlist]
    simp [tryPrefixes, stripPrefixExact]
  have heval := runEpisodeTail_eval (natToDecimal_toList_ne_nil n)
    (natToDecimal_toList_digits n) hep.1 hep.2
    (skipOptSep_colon ((natToDecimal n).toList ++ ':' :: ep.toList))
  simp only [String.toList] at heval
  have hrun : anilistDef.run ("anilist:" ++ natToDecimal n ++ ":" ++ ep) =
      some (String.mk (natToDecimal n).toList, none, some (String.mk ep.toList)) := by
    show tryPrefixes runEpisodeTail ["anilist"]
        ("anilist:" ++ natToDecimal n ++ ":" ++ ep).toList = some _
    rw [hlist]
    simp [tryPrefixes, stripPrefixExact, heval]
  have hparse : parse ("anilist:" ++ natToDecimal n ++ ":" ++ ep) m =
      some (buildParsed anilistDef ("anilist:" ++ natToDecimal n ++ ":" ++ ep) m
        (String.mk (natToDecimal n).toList, none, some (String.mk ep.toList))) := by
    show parseGo _ m ID_PARSERS = _
    simp only [ID_PARSERS]
    rw [parseGo_skip hskip0, parseGo_skip hskip1, parseGo_skip hskip2, parseGo_skip hskip3, parseGo_skip hskip4, parseGo_hit hrun]
  refine ⟨_, hparse, rfl, ?_⟩
  show IdValue.num (jsNumberOfDigits (natToDecimal n)) = IdValue.num n
  rw [jsNumberOfDigits_natToDecimal]

/-- Round trip for a anidb identifier carrying an episode. -/
theorem parse_anidb_gen {n : Nat} {ep : String} (m : String) (hep : DigitStr ep) :
    ∃ q : ParsedId,
      parse ("anidb:" ++ natToDecimal n ++ ":" ++ ep) m = some q ∧
      q.type = .anidbId ∧ q.value = .num n := by
  have hlist : ("anidb:" ++ natToDecimal n ++ ":" ++ ep).toList =
      'a' :: 'n' :: 'i' :: 'd' :: 'b' :: ':' :: ((natToDecimal n).toList ++ ':' :: ep.toList) := by
    simp [toList_append]
  have hskip0 : imdbDef.run ("anidb:" ++ natToDecimal n ++ ":" ++ ep) = none := by
    show tryPrefixes runSeasonEpisodeTail ["tt", "imdb"]
        ("anidb:" ++ natToDecimal n ++ ":" ++ ep).toList = none
    rw [hlist]
    simp [tryPrefixes, stripPrefixExact]
  have hskip1 : malDef.run ("anidb:" ++ natToDecimal n ++ ":" ++ ep) = none := by
    show tryPrefixes runEpisodeTail ["mal"]
        ("anidb:" ++ natToDecimal n ++ ":" ++ ep).toList = none
    rw [hlist]
    simp [tryPrefixes, stripPrefixExact]
  have hskip2 : thetvdbDef.run ("anidb:" ++ natToDecimal n ++ ":" ++ ep) = none := by
    show tryPrefixes runSeasonEpisodeTail ["tvdb"]
        ("anidb:" ++ natToDecimal n ++ ":" ++ ep).toList = none
    rw [hlist]
    simp [tryPrefixes, stripPrefixExact]
  have hskip3 : themoviedbDef.run ("anidb:" ++ natToDecimal n ++ ":" ++ ep) = none := by
    show tryPrefixes runSeasonEpisodeTail ["tmdb"]
        ("anidb:" ++ natToDecimal n ++ ":" ++ ep).toList = none
    rw [hlist]
    simp [tryPrefixes, stripPrefixExact]
  have hskip4 : kitsuDef.run ("anidb:" ++ natToDecimal n ++ ":" ++ ep) = none := by
    show tryPrefixes runEpisodeTail ["kitsu"]
        ("anidb:" ++ natToDecimal n ++ ":" ++ ep).toList = none
    rw [hlist]
    simp [tryPrefixes, stripPrefixExact]
  have hskip5 : anilistDef.run ("anidb:" ++ natToDecimal n ++ ":" ++ ep) = none := by
    show tryPrefixes runEpisodeTail ["anilist"]
        ("anidb:" ++ natToDecimal n ++ ":" ++ ep).toList = none
    rw [hlist]
    simp [tryPrefixes, stripPrefixExact]
  have heval := runEpisodeTail_eval (natToDecimal_toList_ne_nil n)
    (natToDecimal_toList_digits n) hep.1 hep.2
    (skipOptSep_colon ((natToDecimal n).toList ++ ':' :: ep.toList))
  simp only [String.toList] at heval
  have hrun : anidbDef.run ("anidb:" ++ natToDecimal n ++ ":" ++ ep) =
      some (String.mk (natToDecimal n).toList, none, some (String.mk ep.toList)) := by
    show tryPrefixes runEpisodeTail ["anidb", "anidb_id", "anidbid"]
        ("anidb:" ++ natToDecimal n ++ ":" ++ ep).toList = some _
    rw [hlist]
    simp [tryPrefixes, stripPrefixExact, heval]
  have hparse : parse ("anidb:" ++ natToDecimal n ++ ":" ++ ep) m =
      some (buildParsed anidbDef ("anidb:" ++ natToDecimal n ++ ":" ++ ep) m
        (String.mk (natToDecimal n).toList, none, some (String.mk ep.toList))) := by
    show parseGo _ m ID_PARSERS = _
    simp only [ID_PARSERS]
    rw [parseGo_skip hskip0, parseGo_skip hskip1, parseGo_skip hskip2, parseGo_skip hskip3, parseGo_skip hskip4, parseGo_skip hskip5, parseGo_hit hrun]
  refine ⟨_, hparse, rfl, ?_⟩
  show IdValue.num (jsNumberOfDigits (natToDecimal n)) = IdValue.num n
  rw [jsNumberOfDigits_natToDecimal]


theorem parse_some_exists {s m : String} {p : ParsedId}
    (h : parse s m = some p) :
    ∃ d ∈ ID_PARSERS, ∃ g, d.run s = some g ∧ p = buildParsed d s m g := by
  have haux : ∀ L : List IdParserDefinition, parseGo s m L = some p →
      ∃ d ∈ L, ∃ g, d.run s = some g ∧ p = buildParsed d s m g := by
    intro L
    induction L with
    | nil => intro h2; simp [parseGo] at h2
    | cons d rest ih =>
      intro h2
      simp only [parseGo] at h2
      split at h2
      · rename_i g hg
        exact ⟨d, by simp, g, hg, (Option.some_inj.mp h2).symm⟩
      · obtain ⟨d2, hd2, g, hg, hp⟩ := ih h2
        exact ⟨d2, by simp [hd2], g, hg, hp⟩
  exact haux ID_PARSERS h

/-- The round trip holds whenever the parsed identifier carries an episode
(for imdb/tvdb/tmdb this forces a season as well, captured together) and
its numeric value, when the scheme is numeric, stays below `2 ^ 53`.  The
bound confines the statement to the domain where this development's exact
natural-number model of JS numbers coincides with the source's IEEE-754
doubles: above `2 ^ 53` `Number(id)` rounds, and from `1e21` the template
interpolation renders exponent notation (`mal:1.1111111111111111e+21:5`)
which does not re-parse, so in the source the round trip fails there.
The bound is unused by the proof because the embedding is exact. -/
theorem roundtrip_of_episode {s m : String} {p : ParsedId}
    (hp : parse s m = some p) (hep : p.episode.isSome = true)
    (_hsmall : ∀ n : Nat, p.value = IdValue.num n → n < 2 ^ 53) :
    ∃ q : ParsedId,
      parse (p.generator p.value p.season p.episode) m = some q ∧
      q.type = p.type ∧ q.value = p.value := by
  obtain ⟨d, hd, g, hrun, rfl⟩ := parse_some_exists hp
  rcases g with ⟨gid, gse, gep⟩
  fin_cases hd
  · -- imdb
    obtain ⟨cs, hcs⟩ := tryPrefixes_shape hrun
    obtain ⟨hidg, hshape⟩ := runSeasonEpisodeTail_shape hcs
    rcases hshape with ⟨rfl, rfl⟩ | ⟨s2, e2, rfl, rfl, hs2, he2⟩
    · simp [buildParsed] at hep
    · simpa [buildParsed, imdbDef, IdValue.toJs, jsTemplate] using
        parse_imdb_gen m hidg hs2 he2
  · -- mal
    obtain ⟨cs, hcs⟩ := tryPrefixes_shape hrun
    obtain ⟨hidg, rfl, hshape⟩ := runEpisodeTail_shape hcs
    rcases hshape with rfl | ⟨e2, rfl, he2⟩
    · simp [buildParsed] at hep
    · simpa [buildParsed, malDef, IdValue.toJs, jsTemplate] using
        parse_mal_gen (n := jsNumberOfDigits gid) m he2
  · -- thetvdb
    obtain ⟨cs, hcs⟩ := tryPrefixes_shape hrun
    obtain ⟨hidg, hshape⟩ := runSeasonEpisodeTail_shape hcs
    rcases hshape with ⟨rfl, rfl⟩ | ⟨s2, e2, rfl, rfl, hs2, he2⟩
    · simp [buildParsed] at hep
    · simpa [buildParsed, thetvdbDef, IdValue.toJs, jsTemplate] using
        parse_tvdb_gen (n := jsNumberOfDigits gid) m hs2 he2
  · -- themoviedb
    obtain ⟨cs, hcs⟩ := tryPrefixes_shape hrun
    obtain ⟨hidg, hshape⟩ := runSeasonEpisodeTail_shape hcs
    rcases hshape with ⟨rfl, rfl⟩ | ⟨s2, e2, rfl, rfl, hs2, he2⟩
    · simp [buildParsed] at hep
    · simpa [buildParsed, themoviedbDef, IdValue.toJs, jsTemplate] using
        parse_tmdb_gen (n := jsNumberOfDigits gid) m hs2 he2
  · -- kitsu
    obtain ⟨cs, hcs⟩ := tryPrefixes_shape hrun
    obtain ⟨hidg, rfl, hshape⟩ := runEpisodeTail_shape hcs
    rcases hshape with rfl | ⟨e2, rfl, he2⟩
    · simp [buildParsed] at hep
    · simpa [buildParsed, kitsuDef, IdValue.toJs, jsTemplate] using
        parse_kitsu_gen (n := jsNumberOfDigits gid) m he2
  · -- anilist
    obtain ⟨cs, hcs⟩ := tryPrefixes_shape hrun
    obtain ⟨hidg, rfl, hshape⟩ := runEpisodeTail_shape hcs
    rcases hshape with rfl | ⟨e2, rfl, he2⟩
    · simp [buildParsed] at hep
    · simpa [buildParsed, anilistDef, IdValue.toJs, jsTemplate] using
        parse_anilist_gen (n := jsNumberOfDigits gid) m he2
  · -- anidb
    obtain ⟨cs, hcs⟩ := tryPrefixes_shape hrun
    obtain ⟨hidg, rfl, hshape⟩ := runEpisodeTail_shape hcs
    rcases hshape with rfl | ⟨e2, rfl, he2⟩
    · simp [buildParsed] at hep
    · simpa [buildParsed, anidbDef, IdValue.toJs, jsTemplate] using
        parse_anidb_gen (n := jsNumberOfDigits gid) m he2
  · -- animePlanet: no episode capture
    obtain ⟨cs, hcs⟩ := tryPrefixes_shape hrun
    obtain ⟨-, rfl⟩ := runIdOnlyTail_shape hcs
    simp [buildParsed] at hep
  · -- animecountdown
    obtain ⟨cs, hcs⟩ := tryPrefixes_shape hrun
    obtain ⟨-, rfl⟩ := runIdOnlyTail_shape hcs
    simp [buildParsed] at hep
  · -- anisearch
    obtain ⟨cs, hcs⟩ := tryPrefixes_shape hrun
    obtain ⟨-, rfl⟩ := runIdOnlyTail_shape hcs
    simp [buildParsed] at hep
  · -- notifyMoe
    obtain ⟨cs, hcs⟩ := tryPrefixes_shape hrun
    obtain ⟨-, rfl⟩ := runAlnumTail_shape hcs
    simp [buildParsed] at hep
  · -- simkl
    obtain ⟨cs, hcs⟩ := tryPrefixes_shape hrun
    obtain ⟨-, rfl⟩ := runIdOnlyTail_shape hcs
    simp [buildParsed] at hep


/-- C5 (amended).  For every accepted identifier string whose parse carries
an episode — imdb/tvdb/tmdb inputs with the `:season:episode` segments,
mal/kitsu/anilist/anidb inputs with the `:episode` segment — and whose
numeric value (for the numeric schemes) is below `2 ^ 53`, applying the
parsed result's generator to its value, season and episode yields a string
that re-parses to the same scheme type and the same value.  The `2 ^ 53`
bound keeps the statement inside the domain where JS `Number` is exact
and template interpolation renders plain decimal digits; above it the
source's doubles round and (from `1e21`) render exponent notation that
does not re-parse, so the source round trip fails there.  Closed
conjuncts run the round trip on an imdb and a mal identifier. -/
theorem c5_roundtrip_with_episode :
    (∀ (s m : String) (p : ParsedId), parse s m = some p →
      p.episode.isSome = true →
      (∀ n : Nat, p.value = IdValue.num n → n < 2 ^ 53) →
      ∃ q : ParsedId,
        parse (p.generator p.value p.season p.episode) m = some q ∧
        q.type = p.type ∧ q.value = p.value) ∧
    (parse "tt1234567:1:2" "series").map
      (fun p => p.generator p.value p.season p.episode) = some "tt1234567:1:2" ∧
    ((parse "tt1234567:1:2" "series").bind
        (fun p => parse (p.generator p.value p.season p.episode) "series")).map
      (fun q => (q.type, q.value)) = some (.imdbId, .str "tt1234567") ∧
    ((parse "mal:123:5" "anime").bind
        (fun p => parse (p.generator p.value p.season p.episode) "anime")).map
      (fun q => (q.type, q.value)) = some (.malId, .num 123) :=
  ⟨fun _ _ _ hp hep hsmall => roundtrip_of_episode hp hep hsmall,
    by rfl, by rfl, by rfl⟩

/-- C5 counterexample: `"tt123"` is accepted by the resolver (an imdb id
with the optional season/episode segments absent), but its generator
interpolates the absent season and episode as the text `"undefined"`, and
the generated string `"tt123:undefined:undefined"` re-parses to nothing —
likewise for a simkl id, whose scheme never captures an episode at all. -/
theorem c5_roundtrip_fails_without_episode :
    (parse "tt123" "movie").map
      (fun p => p.generator p.value p.season p.episode) =
        some "tt123:undefined:undefined" ∧
    parse "tt123:undefined:undefined" "movie" = none ∧
    (parse "simkl:99" "movie").map
      (fun p => p.generator p.value p.season p.episode) =
        some "simkl:99:undefined" ∧
    parse "simkl:99:undefined" "movie" = none :=
  ⟨by rfl, by rfl, by rfl, by rfl⟩

end IdParser
